import Mathlib

/-!
Participant service (`src/server.js`)

A shallow embedding of the Express handlers of `src/server.js` and of the
order in which the server registers its routes.

Modelling conventions.

* A stored value (`JVal`) is what JavaScript holds after `JSON.parse` of the
  file that `JSON.stringify` wrote (plus `undefined` for an absent property).
  Numbers are carried as exact rationals: every finite double is one.  Arrays
  and objects are carried as their JSON text, because no handler ever looks
  inside one.
* A value of the request body (`BodyVal`) is a stored value or a value that
  `JSON.stringify` does not write back as it is: `Infinity` or `-Infinity`,
  which `JSON.parse` gives for a numeral too large for a double such as
  `1e400`, or an array or object holding one.  `JSON.stringify` writes such a
  number as `null`, to the file and to the response alike (`BodyVal.written`).
* The stored collection is the array returned by `readParticipants`; each
  element is read through its six properties `id, nome, email, senha, idade,
  cidade`.  Its values are those that `JSON.stringify`, which
  `saveParticipants` uses, can write: a file whose text holds a numeral too
  large for a double is not followed, so a stored value is never `Infinity`.
* `saveParticipants` either writes the whole array or fails; `diskOk` says
  which.  A handler yields its response together with the collection that is
  on disk afterwards.
* `Date.now()` is a parameter `now`, the clock in milliseconds.
* The statistics handlers coerce values of unexpected type; the coercions that
  depend on the text of a string or the contents of an array or object are
  parameters (`Coercions`).  The tally of cities is an object created by `{}`:
  its own properties, the names it inherits and the order of `for...in` are
  modelled.
* The backing file is given by what `fs.readFileSync` and `JSON.parse` do on
  it (`FileState`).
-/

namespace Server

/-- A JavaScript value that `JSON.stringify` writes and `JSON.parse` reads back
unchanged: what the file holds and what a response carries. -/
inductive JVal where
  | undefined
  | null
  | bool (b : Bool)
  | num (q : ℚ)
  | str (s : String)
  | arr (json : String)
  | obj (json : String)
  deriving DecidableEq

/-- The results of `typeof` that can occur. -/
inductive JType where
  | undefined
  | object
  | boolean
  | number
  | string
  deriving DecidableEq

/-- The operator `typeof v`. -/
def JVal.typeOf : JVal → JType
  | .undefined => .undefined
  | .null => .object
  | .bool _ => .boolean
  | .num _ => .number
  | .str _ => .string
  | .arr _ => .object
  | .obj _ => .object

/-- Truthiness: `undefined`, `null`, `false`, `0` and `""` are falsy. -/
def JVal.truthy : JVal → Bool
  | .undefined => false
  | .null => false
  | .bool b => b
  | .num q => decide (q ≠ 0)
  | .str s => decide (s ≠ "")
  | .arr _ => true
  | .obj _ => true

/-- The operator `a === b` between two values that come from two different
`JSON.parse` calls (request against file): arrays and objects are then never
the same reference. -/
def JVal.strictEq : JVal → JVal → Bool
  | .undefined, .undefined => true
  | .null, .null => true
  | .bool a, .bool b => decide (a = b)
  | .num a, .num b => decide (a = b)
  | .str a, .str b => decide (a = b)
  | _, _ => false

/-- A value of the parsed request body: a value that survives
`JSON.stringify` unchanged, or `Infinity` / `-Infinity` (a numeral too large for
a double), or an array or object that holds such a number, carried as the JSON
text that `JSON.stringify` writes for it. -/
inductive BodyVal where
  | val (v : JVal)
  | infinity (negative : Bool)
  | lossyArr (written : String)
  | lossyObj (written : String)
  deriving DecidableEq

/-- The value as `JSON.stringify` writes it, to the file (`saveParticipants`)
and to the response (`response.json`), and as `JSON.parse` reads it back:
`Infinity` and `-Infinity` are written as `null`. -/
def BodyVal.written : BodyVal → JVal
  | .val v => v
  | .infinity _ => .null
  | .lossyArr json => .arr json
  | .lossyObj json => .obj json

/-- The operator `typeof b` on a value of the body. -/
def BodyVal.typeOf : BodyVal → JType
  | .val v => v.typeOf
  | .infinity _ => .number
  | .lossyArr _ => .object
  | .lossyObj _ => .object

/-- Truthiness of a value of the body: `Infinity`, `-Infinity`, arrays and
objects are truthy. -/
def BodyVal.truthy : BodyVal → Bool
  | .val v => v.truthy
  | _ => true

/-- The operator `===` between a value of the body and a stored value (in
either order: it is symmetric).  No stored value is `Infinity`, and arrays and
objects of the request and of the file are never the same reference. -/
def BodyVal.strictEq : BodyVal → JVal → Bool
  | .val v, w => v.strictEq w
  | _, _ => false

/-- The test `typeof idade !== 'number' || idade < 16`: `Infinity < 16` is
false and `-Infinity < 16` is true. -/
def idadeInvalida : BodyVal → Bool
  | .val (.num q) => decide (q < 16)
  | .infinity negative => negative
  | _ => true

/-- One element of the stored array, seen through the six properties the
handlers read and write. -/
structure Participant where
  id : JVal
  nome : JVal
  email : JVal
  senha : JVal
  idade : JVal
  cidade : JVal
  deriving DecidableEq

/-- The destructured `request.body`: `{ nome, email, senha, idade, cidade }`. -/
structure Body where
  nome : BodyVal
  email : BodyVal
  senha : BodyVal
  idade : BodyVal
  cidade : BodyVal
  deriving DecidableEq

/-- The JSON body of a response. -/
inductive Payload where
  | mensagem (m : String)
  | mensagemData (m : String) (data : Participant)
  | participante (p : Participant)
  | lista (ps : List Participant)
  | total (n : Nat)
  | maioresDe18 (n : Nat)
  | cidadeMais (cidadeComMaisParticipantes : Option String) (total : Nat)
  deriving DecidableEq

/-- A response: `response.status(s).json(body)`. -/
structure Response where
  status : Nat
  body : Payload
  deriving DecidableEq

/-- What a handler leaves behind: the response and the collection on disk. -/
structure Outcome where
  response : Response
  persisted : List Participant
  deriving DecidableEq

/-- `Array.prototype.findIndex`, with `none` for `-1`. -/
def findIndex {α : Type} (f : α → Bool) : List α → Option Nat
  | [] => none
  | x :: xs => if f x then some 0 else (findIndex f xs).map (· + 1)

/-- `Date.now().toString()`. -/
def dateNowToString (now : Nat) : String := toString now

/-- The record built at `novoParticipante` in `app.post("/participants")`, as
`JSON.stringify` writes it to the response (line 73) and to the file (line 32);
the handler makes no other use of it. -/
def novoParticipante (now : Nat) (body : Body) : Participant :=
  { id := .str (dateNowToString now)
    nome := body.nome.written
    email := body.email.written
    senha := body.senha.written
    idade := body.idade.written
    cidade := body.cidade.written }

/-- Handler `app.post("/participants")`. -/
def postParticipants (now : Nat) (diskOk : Bool) (body : Body)
    (stored : List Participant) : Outcome :=
  if !body.nome.truthy || !body.email.truthy || !body.senha.truthy
      || !body.idade.truthy || !body.cidade.truthy then
    ⟨⟨400, .mensagem "Todos os campos são obrigatórios."⟩, stored⟩
  else if body.nome.typeOf != .string || body.email.typeOf != .string
      || body.senha.typeOf != .string || body.cidade.typeOf != .string then
    ⟨⟨400, .mensagem "Todos os camposas temq ser string."⟩, stored⟩
  else if idadeInvalida body.idade then
    ⟨⟨400, .mensagem "A idade ser um número e ser igual ou superior a 16 anos."⟩, stored⟩
  else
    let participants := stored
    if participants.any (fun p => body.email.strictEq p.email) then
      ⟨⟨409, .mensagem "Esse e-mail está cadastrado."⟩, stored⟩
    else
      let novo := novoParticipante now body
      let participants := participants ++ [novo]
      if diskOk then
        ⟨⟨201, .mensagemData "Participante cadastrado com sucesso!" novo⟩, participants⟩
      else
        ⟨⟨500, .mensagem "Erro ao salvar o participante."⟩, stored⟩

/-- Handler `app.get("/participants")`. -/
def getParticipants (stored : List Participant) : Response :=
  ⟨200, .lista stored⟩

/-- Handler `app.get("/participants/:id")`. -/
def getParticipantById (id : String) (stored : List Participant) : Response :=
  match stored.find? (fun p => p.id.strictEq (.str id)) with
  | some participante => ⟨200, .participante participante⟩
  | none => ⟨404, .mensagem "Participante não encontrado."⟩

/-- The record built at `participanteAtualizado` in
`app.put("/participants/:id")`: the spread of the existing record with the five
properties overwritten where the body's value `!== undefined`, as
`JSON.stringify` writes it to the response (line 136) and to the file (line
32); the handler makes no other use of it. -/
def participanteAtualizado (existente : Participant) (body : Body) : Participant :=
  { existente with
    nome := if !body.nome.strictEq .undefined then body.nome.written else existente.nome
    email := if !body.email.strictEq .undefined then body.email.written else existente.email
    senha := if !body.senha.strictEq .undefined then body.senha.written else existente.senha
    idade := if !body.idade.strictEq .undefined then body.idade.written else existente.idade
    cidade :=
      if !body.cidade.strictEq .undefined then body.cidade.written else existente.cidade }

/-- Handler `app.put("/participants/:id")`.  The inner `none` branch stands for
`participants[indexParticipante]` being `undefined`, where reading `.email`
throws and Express answers 500; `findIndex` never returns such an index. -/
def putParticipant (diskOk : Bool) (id : String) (body : Body)
    (stored : List Participant) : Outcome :=
  if !body.nome.truthy && !body.email.truthy && !body.senha.truthy
      && !body.idade.truthy && !body.cidade.truthy then
    ⟨⟨400, .mensagem "Tem que digitar em algum espaço"⟩, stored⟩
  else if !body.idade.strictEq .undefined && idadeInvalida body.idade then
    ⟨⟨400, .mensagem "A idade deve ser número e igual ou maior que 16."⟩, stored⟩
  else
    let participants := stored
    match findIndex (fun p => p.id.strictEq (.str id)) participants with
    | none => ⟨⟨404, .mensagem "Participante não encontrado."⟩, stored⟩
    | some indexParticipante =>
      match participants[indexParticipante]? with
      | none => ⟨⟨500, .mensagem "Internal Server Error"⟩, stored⟩
      | some participanteExistente =>
        if body.email.truthy && !body.email.strictEq participanteExistente.email
            && participants.any (fun p => body.email.strictEq p.email) then
          ⟨⟨409, .mensagem "Este e-mail já está cadastrado."⟩, stored⟩
        else
          let atualizado := participanteAtualizado participanteExistente body
          let participants := participants.set indexParticipante atualizado
          if diskOk then
            ⟨⟨200, .mensagemData "Participante atualizado com sucesso!" atualizado⟩,
              participants⟩
          else
            ⟨⟨500, .mensagem "Erro ao atualizar o participante."⟩, stored⟩

/-- Handler `app.delete("/participants/:id")`; `splice(indexParticipante, 1)`
removes the element at that index and returns it. -/
def deleteParticipant (diskOk : Bool) (id : String)
    (stored : List Participant) : Outcome :=
  let participants := stored
  match findIndex (fun p => p.id.strictEq (.str id)) participants with
  | none => ⟨⟨404, .mensagem "Participante não encontrado."⟩, stored⟩
  | some indexParticipante =>
    match participants[indexParticipante]? with
    | none => ⟨⟨500, .mensagem "Internal Server Error"⟩, stored⟩
    | some participanteRemovido =>
      let participants := participants.eraseIdx indexParticipante
      if diskOk then
        ⟨⟨200, .mensagemData "Participante removido com sucesso!" participanteRemovido⟩,
          participants⟩
      else
        ⟨⟨500, .mensagem "Erro ao remover o participante."⟩, stored⟩

/-- Handler `app.get("/participants/count")`. -/
def getParticipantsCount (stored : List Participant) : Response :=
  ⟨200, .total stored.length⟩

/-! ## Route table -/

/-- HTTP methods the server registers routes for. -/
inductive Method where
  | GET
  | POST
  | PUT
  | DELETE
  deriving DecidableEq

/-- One segment of a route path: a literal, or a `:name` parameter. -/
inductive Seg where
  | lit (s : String)
  | param (name : String)
  deriving DecidableEq

/-- The handlers of `src/server.js`, named by the route they are given to. -/
inductive Endpoint where
  | postParticipants
  | getParticipants
  | getParticipantById
  | putParticipant
  | deleteParticipant
  | getParticipantsCount
  | getParticipantsCountOver18
  | getParticipantsCityMost
  deriving DecidableEq

/-- A registered route. -/
structure Route where
  method : Method
  path : List Seg
  endpoint : Endpoint
  deriving DecidableEq

/-- The routes in the order `src/server.js` registers them on `app`. -/
def routes : List Route :=
  [ ⟨.POST, [.lit "participants"], .postParticipants⟩,
    ⟨.GET, [.lit "participants"], .getParticipants⟩,
    ⟨.GET, [.lit "participants", .param "id"], .getParticipantById⟩,
    ⟨.PUT, [.lit "participants", .param "id"], .putParticipant⟩,
    ⟨.DELETE, [.lit "participants", .param "id"], .deleteParticipant⟩,
    ⟨.GET, [.lit "participants", .lit "count"], .getParticipantsCount⟩,
    ⟨.GET, [.lit "participants", .lit "count", .lit "over18"], .getParticipantsCountOver18⟩,
    ⟨.GET, [.lit "participants", .lit "city", .lit "most"], .getParticipantsCityMost⟩ ]

/-- Match a route path against the segments of a request path: a literal
matches itself, a parameter matches any one segment and binds it.  The result
is the list of bound parameter values. -/
def matchPath : List Seg → List String → Option (List String)
  | [], [] => some []
  | .lit s :: ps, x :: xs => if s = x then matchPath ps xs else none
  | .param _ :: ps, x :: xs => (matchPath ps xs).map (x :: ·)
  | _, _ => none

/-- The router: the first registered route, in registration order, whose method
and path match the request; every handler answers without calling `next`. -/
def dispatchIn (rs : List Route) (m : Method) (path : List String) :
    Option (Endpoint × List String) :=
  rs.findSome? (fun r =>
    if r.method = m then (matchPath r.path path).map (fun ps => (r.endpoint, ps))
    else none)

/-- Routing through the server's own table. -/
def dispatch (m : Method) (path : List String) : Option (Endpoint × List String) :=
  dispatchIn routes m path

/-- The answer to `GET /participants/count`, obtained by routing the request
and running the handler that the router selects. -/
def serveGetCountPath (stored : List Participant) : Option Response :=
  match dispatch .GET ["participants", "count"] with
  | some (.getParticipantById, [id]) => some (getParticipantById id stored)
  | some (.getParticipantsCount, []) => some (getParticipantsCount stored)
  | some (.getParticipants, []) => some (getParticipants stored)
  | _ => none

/-! ## Statistics handlers

The two handlers below apply JavaScript operators to `idade` and `cidade`
without a type test, so a stored value of another type is coerced.  The
coercions that depend on the text of a string or on the contents of an array or
object are taken as parameters; every theorem holds whatever they are. -/

/-- The coercions the model does not compute. -/
structure Coercions where
  /-- Result of `s >= k` for a string `s` and a number `k`. -/
  stringGe : String → ℚ → Bool
  /-- Result of `v >= k` for an array or object `v`, given as JSON text. -/
  objectGe : String → ℚ → Bool
  /-- The operation `String(q)` on a number. -/
  numberToString : ℚ → String
  /-- The operation `String(v)` on an array or object, given as JSON text. -/
  objectToString : String → String

/-- Coercions for the concrete scenarios, none of which triggers one: their
ages are numbers and their cities are strings. -/
def unusedCoercions : Coercions :=
  ⟨fun _ _ => false, fun _ _ => false, fun _ => "", fun _ => ""⟩

/-- The operator `v >= k` for a number `k`: `undefined` becomes `NaN`, `null`
becomes 0, `true` becomes 1 and `false` becomes 0. -/
def JVal.ge (js : Coercions) (v : JVal) (k : ℚ) : Bool :=
  match v with
  | .undefined => false
  | .null => decide (k ≤ 0)
  | .bool b => decide (k ≤ if b then 1 else 0)
  | .num q => decide (k ≤ q)
  | .str s => js.stringGe s k
  | .arr json => js.objectGe json k
  | .obj json => js.objectGe json k

/-- Handler `app.get("/participants/count/over18")`. -/
def getParticipantsCountOver18 (js : Coercions) (stored : List Participant) : Response :=
  let maioresDe18 := (stored.filter (fun p => p.idade.ge js 18)).length
  ⟨200, .maioresDe18 maioresDe18⟩

/-- The property key that `acc[v]` uses: `v` converted to a string. -/
def JVal.propertyKey (js : Coercions) (v : JVal) : String :=
  match v with
  | .undefined => "undefined"
  | .null => "null"
  | .bool b => if b then "true" else "false"
  | .num q => js.numberToString q
  | .str s => s
  | .arr json => js.objectToString json
  | .obj json => js.objectToString json

/-- The property names every object inherits from `Object.prototype`. -/
def objectPrototypeKeys : List String :=
  ["constructor", "__defineGetter__", "__defineSetter__", "hasOwnProperty",
   "__lookupGetter__", "__lookupSetter__", "isPrototypeOf", "propertyIsEnumerable",
   "toString", "valueOf", "__proto__", "toLocaleString"]

/-- What an own property of `contagemCidades` holds: a count, or a string that
is not a number (the text of an inherited function followed by `1`s). -/
inductive Slot where
  | count (n : Nat)
  | text
  deriving DecidableEq

/-- The own properties of an object, in the order of their creation. -/
abbrev Props := List (String × Slot)

/-- Read the own property `k`. -/
def getOwn (acc : Props) (k : String) : Option Slot :=
  (acc.find? (fun e => decide (e.1 = k))).map (fun e => e.2)

/-- Write the own property `k`: an existing property keeps its place, a new one
is created last. -/
def setOwn (acc : Props) (k : String) (v : Slot) : Props :=
  if acc.any (fun e => decide (e.1 = k)) then
    acc.map (fun e => if e.1 = k then (k, v) else e)
  else acc ++ [(k, v)]

/-- The statement `acc[k] = (acc[k] || 0) + 1` on an object created by `{}`.
An own count is incremented.  An own string stays a string.  Where there is no
own property, the name `__proto__` reads `Object.prototype` and its setter
ignores the string assigned; any other inherited name reads a function, and the
function plus 1 is a string; a name that is not inherited starts at 1. -/
def contar (acc : Props) (k : String) : Props :=
  match getOwn acc k with
  | some (.count n) => setOwn acc k (.count (n + 1))
  | some .text => setOwn acc k .text
  | none =>
    if k = "__proto__" then acc
    else if k ∈ objectPrototypeKeys then setOwn acc k .text
    else setOwn acc k (.count 1)

/-- The object `contagemCidades`: the `reduce` over the participants. -/
def contagemCidades (js : Coercions) (stored : List Participant) : Props :=
  stored.foldl (fun acc p => contar acc (p.cidade.propertyKey js)) []

/-- The array index a property name denotes, if any: the canonical decimal
string of a number below `2^32 - 1`. -/
def arrayIndex (k : String) : Option Nat :=
  let n := k.data.foldl (fun n c => n * 10 + (c.toNat - 48)) 0
  if toString n = k ∧ n < 4294967295 then some n else none

/-- The order in which `for (const cidade in contagemCidades)` visits the own
properties: array indices in ascending numeric order, then the other names in
the order of their creation. -/
def forInOrder (acc : Props) : Props :=
  (acc.filter (fun e => (arrayIndex e.1).isSome)).insertionSort
      (fun a b => (arrayIndex a.1).getD 0 ≤ (arrayIndex b.1).getD 0)
    ++ acc.filter (fun e => !(arrayIndex e.1).isSome)

/-- One turn of the loop over `contagemCidades`, on the pair
`(cidadeComMaisParticipantes, maxParticipantes)`.  A string compared with a
number by `>` is `NaN > n`, which is false. -/
def visitarCidade (st : Option String × Nat) (e : String × Slot) : Option String × Nat :=
  match e.2 with
  | .count n => if n > st.2 then (some e.1, n) else st
  | .text => st

/-- The loop over `contagemCidades`: the pair `(cidadeComMaisParticipantes,
maxParticipantes)` after visiting `entries` in order, starting from
`(null, 0)`. -/
def maisParticipantes (entries : Props) : Option String × Nat :=
  entries.foldl visitarCidade (none, 0)

/-- Handler `app.get("/participants/city/most")`. -/
def getParticipantsCityMost (js : Coercions) (stored : List Participant) : Response :=
  if stored.length = 0 then ⟨200, .cidadeMais none 0⟩
  else
    let r := maisParticipantes (forInOrder (contagemCidades js stored))
    ⟨200, .cidadeMais r.1 r.2⟩

/-! ## Persistence helper -/

/-- A value that `JSON.parse` can return and that is not an array. -/
inductive NonArray where
  | null
  | bool (b : Bool)
  | num (q : ℚ)
  | str (s : String)
  | obj (json : String)
  deriving DecidableEq

/-- The result of `JSON.parse(data)` when it does not throw: an array, seen as
the list of its elements, or another value. -/
inductive Parsed where
  | array (ps : List Participant)
  | other (v : NonArray)
  deriving DecidableEq

/-- The state of the backing file, as `readParticipants` meets it: the file is
absent, or `fs.readFileSync` fails for another reason, or its text makes
`JSON.parse` throw, or its text is JSON with the given value. -/
inductive FileState where
  | absent
  | unreadable
  | invalidJson (text : String)
  | json (value : Parsed)
  deriving DecidableEq

/-- The function `readParticipants`: the parsed value, or `[]` when reading or
parsing throws. -/
def readParticipants : FileState → Parsed
  | .absent => .array []
  | .unreadable => .array []
  | .invalidJson _ => .array []
  | .json value => value

/-- A GET handler run on the backing file.  The result is `none` when
`readParticipants` hands the handler a value that is not an array; what the
handlers do with such a value is not followed here. -/
def onFile (handler : List Participant → Response) (file : FileState) : Option Response :=
  match readParticipants file with
  | .array ps => some (handler ps)
  | .other _ => none

/-! ## Properties of a stored collection and of a request, in the words of the
specification -/

/-- No two stored participants have the same email. -/
def emailsDistinct (stored : List Participant) : Prop :=
  (stored.map Participant.email).Nodup

instance (stored : List Participant) : Decidable (emailsDistinct stored) :=
  inferInstanceAs (Decidable (List.Nodup _))

/-- No two stored participants have the same id. -/
def idsDistinct (stored : List Participant) : Prop :=
  (stored.map Participant.id).Nodup

instance (stored : List Participant) : Decidable (idsDistinct stored) :=
  inferInstanceAs (Decidable (List.Nodup _))

/-- The participant's `idade` is a number and at least 16. -/
def idadeOk (p : Participant) : Prop :=
  ∃ q : ℚ, p.idade = .num q ∧ 16 ≤ q

/-- A missing or falsy value of the body. -/
def BodyVal.falsy (b : BodyVal) : Prop :=
  b = .val .undefined ∨ b = .val .null ∨ b = .val (.bool false) ∨ b = .val (.num 0)
    ∨ b = .val (.str "")

/-- The value of the body is a string. -/
def BodyVal.isStr (b : BodyVal) : Prop :=
  ∃ s : String, b = .val (.str s)

/-- The value of the body is a number and at least `k`; `Infinity` is one. -/
def BodyVal.isNumAtLeast (k : ℚ) (b : BodyVal) : Prop :=
  (∃ q : ℚ, b = .val (.num q) ∧ k ≤ q) ∨ b = .infinity false

/-- The conditions under which the specification has a registration answered
with 400. -/
def registrationInvalid (body : Body) : Prop :=
  (body.nome.falsy ∨ body.email.falsy ∨ body.senha.falsy ∨ body.idade.falsy
      ∨ body.cidade.falsy)
    ∨ (¬ body.nome.isStr ∨ ¬ body.email.isStr ∨ ¬ body.senha.isStr ∨ ¬ body.cidade.isStr)
    ∨ ¬ body.idade.isNumAtLeast 16

/-- The statuses of a rejected request: 400, 404 or 409. -/
def rejected (status : Nat) : Prop :=
  status = 400 ∨ status = 404 ∨ status = 409

instance (status : Nat) : Decidable (rejected status) :=
  inferInstanceAs (Decidable (_ ∨ _))

/-- Some stored participant has the email of the body. -/
def emailTaken (body : Body) (stored : List Participant) : Prop :=
  ∃ p ∈ stored, .val p.email = body.email

/-- A valid registration body, used in the concrete scenarios below. -/
def anaBody : Body :=
  ⟨.val (.str "Ana"), .val (.str "ana@x.com"), .val (.str "s1"), .val (.num 20),
    .val (.str "Recife")⟩

/-- A second valid registration body, with another email. -/
def biaBody : Body :=
  ⟨.val (.str "Bia"), .val (.str "bia@x.com"), .val (.str "s2"), .val (.num 30),
    .val (.str "Natal")⟩

/-- An update body that supplies a name and an empty email. -/
def blankEmailBody : Body :=
  ⟨.val (.str "Zed"), .val (.str ""), .val .undefined, .val .undefined, .val .undefined⟩

/-- The collection after both registrations (clock 1, then clock 2) and the
first update, starting from the empty collection. -/
def afterFirstBlank : List Participant :=
  (putParticipant true "1" blankEmailBody
    (postParticipants 2 true biaBody
      (postParticipants 1 true anaBody []).persisted).persisted).persisted

/-- The collection after registering Ana at clock 1 and Bia at clock 2. -/
def anaBia : List Participant :=
  (postParticipants 2 true biaBody (postParticipants 1 true anaBody []).persisted).persisted

/-- An update body that supplies only `cidade`. -/
def cidadeOnlyBody : Body :=
  ⟨.val .undefined, .val .undefined, .val .undefined, .val .undefined, .val (.str "Olinda")⟩

/-- An update body that supplies only the email `s`. -/
def emailOnlyBody (s : String) : Body :=
  ⟨.val .undefined, .val (.str s), .val .undefined, .val .undefined, .val .undefined⟩

/-- A collection in which two records carry the same email. -/
def sharedEmail : List Participant :=
  [⟨.str "1", .str "Ana", .str "ana@x.com", .str "s1", .num 20, .str "Recife"⟩,
   ⟨.str "2", .str "Bia", .str "ana@x.com", .str "s2", .num 30, .str "Natal"⟩]

/-- The collection after registering Ana and then Bia while the clock reads 1
both times: both records get the id `"1"`. -/
def sameClock : List Participant :=
  (postParticipants 1 true biaBody (postParticipants 1 true anaBody []).persisted).persisted

/-- A well-formed participant record: `id`, `nome`, `email`, `senha` and
`cidade` are strings and `idade` is a number. -/
def wellFormed (p : Participant) : Prop :=
  p.id.typeOf = .string ∧ p.nome.typeOf = .string ∧ p.email.typeOf = .string
    ∧ p.senha.typeOf = .string ∧ p.cidade.typeOf = .string ∧ p.idade.typeOf = .number

instance (p : Participant) : Decidable (wellFormed p) :=
  inferInstanceAs (Decidable (_ ∧ _))

/-- An update body that supplies only `nome`, as the number 123. -/
def numericNomeBody : Body :=
  ⟨.val (.num 123), .val .undefined, .val .undefined, .val .undefined, .val .undefined⟩

/-- An update body that supplies only `nome`, as the empty string. -/
def emptyNomeBody : Body :=
  ⟨.val (.str ""), .val .undefined, .val .undefined, .val .undefined, .val .undefined⟩

/-- The conditions under which the update handler answers 400: none of the five
fields is supplied with a truthy value, or `idade` is supplied and is not a
number of at least 16. -/
def updateInvalid (body : Body) : Prop :=
  (body.nome.falsy ∧ body.email.falsy ∧ body.senha.falsy ∧ body.idade.falsy
      ∧ body.cidade.falsy)
    ∨ (body.idade ≠ .val .undefined ∧ ¬ body.idade.isNumAtLeast 16)

/-- The participant's `idade` is a number and at least 18. -/
def maiorDe18 (p : Participant) : Prop :=
  ∃ q : ℚ, p.idade = .num q ∧ 18 ≤ q

/-- Participants registered with the ages 18, 20 and 16, as in the
specification's test of the over-18 count. -/
def idades182016 : List Participant :=
  [⟨.str "1", .str "Ana", .str "ana@x.com", .str "s1", .num 18, .str "Recife"⟩,
   ⟨.str "2", .str "Bia", .str "bia@x.com", .str "s2", .num 20, .str "Natal"⟩,
   ⟨.str "3", .str "Caio", .str "caio@x.com", .str "s3", .num 16, .str "Olinda"⟩]

/-- The city names of the collection, in collection order, as the tally reads
them: a `cidade` that is a string is its own name. -/
def cityKeys (js : Coercions) (stored : List Participant) : List String :=
  stored.map (fun p => p.cidade.propertyKey js)

/-- The number of participants whose city name is `c`. -/
def cityCount (js : Coercions) (stored : List Participant) (c : String) : Nat :=
  (cityKeys js stored).count c

/-- The position of the first participant whose city name is `c`. -/
def firstOccurrence (js : Coercions) (stored : List Participant) (c : String) : Nat :=
  (cityKeys js stored).indexOf c

/-- A valid participant record living in the city `c`. -/
def morador (c : String) : Participant :=
  ⟨.str "1", .str "Ana", .str "ana@x.com", .str "s1", .num 20, .str c⟩

/-- A third valid registration body, with yet another email. -/
def caioBody : Body :=
  ⟨.val (.str "Caio"), .val (.str "caio@x.com"), .val (.str "s3"), .val (.num 40),
    .val (.str "Olinda")⟩

/-- A valid registration body but for its idade, the numeral `1e400`, which
`JSON.parse` reads as `Infinity`. -/
def infinityBody : Body :=
  ⟨.val (.str "Eva"), .val (.str "eva@x.com"), .val (.str "s4"), .infinity false,
    .val (.str "Recife")⟩

/-- An update body that supplies only idade, as the numeral `1e400`. -/
def infinityIdadeBody : Body :=
  ⟨.val .undefined, .val .undefined, .val .undefined, .infinity false, .val .undefined⟩

/-! ## Auxiliary facts -/

theorem findIndex_eq_none {α : Type} (f : α → Bool) (l : List α) :
    findIndex f l = none ↔ ∀ x ∈ l, f x = false := by
  induction l with
  | nil => simp [findIndex]
  | cons a t ih =>
    by_cases h : f a = true
    · simp [findIndex, h]
    · simp [findIndex, h, ih]

theorem findIndex_eq_some {α : Type} (f : α → Bool) (l : List α) (i : Nat)
    (h : findIndex f l = some i) :
    ∃ x, l[i]? = some x ∧ f x = true ∧
      ∀ j y, j < i → l[j]? = some y → f y = false := by
  induction l generalizing i with
  | nil => simp [findIndex] at h
  | cons a t ih =>
    by_cases ha : f a = true
    · simp [findIndex, ha] at h
      subst h
      exact ⟨a, by simp, ha, by intro j y hj; omega⟩
    · simp [findIndex, ha] at h
      obtain ⟨k, hk, rfl⟩ := h
      obtain ⟨x, hx, hfx, hlt⟩ := ih k hk
      refine ⟨x, by simpa using hx, hfx, ?_⟩
      intro j y hj hy
      cases j with
      | zero =>
        simp at hy
        subst hy
        simpa using ha
      | succ j =>
        simp at hy
        exact hlt j y (by omega) hy

theorem find?_of_findIndex {α : Type} (f : α → Bool) (l : List α) :
    l.find? f = (findIndex f l).bind (fun i => l[i]?) := by
  induction l with
  | nil => simp [findIndex]
  | cons a t ih =>
    by_cases ha : f a = true
    · simp [findIndex, ha]
    · simp [findIndex, ha, ih]
      cases findIndex f t <;> simp

theorem strictEq_str_iff (v : JVal) (s : String) :
    v.strictEq (.str s) = true ↔ v = .str s := by
  cases v <;> simp [JVal.strictEq]

theorem str_strictEq_iff (v : JVal) (s : String) :
    (JVal.str s).strictEq v = true ↔ v = .str s := by
  cases v <;> simp [JVal.strictEq, eq_comm]

theorem strictEq_undefined_iff (v : JVal) :
    v.strictEq .undefined = true ↔ v = .undefined := by
  cases v <;> simp [JVal.strictEq]

theorem toDigitsCore_length_pos (b fuel n : Nat) (ds : List Char) :
    ds.length < (Nat.toDigitsCore b (fuel + 1) n ds).length := by
  induction fuel generalizing n ds with
  | zero =>
    simp only [Nat.toDigitsCore]
    split <;> simp
  | succ k ih =>
    rw [Nat.toDigitsCore]
    split
    · simp
    · exact Nat.lt_trans (by simp) (ih _ _)

theorem dateNowToString_ne_empty (now : Nat) : dateNowToString now ≠ "" := by
  intro h
  have h1 : (Nat.toDigits 10 now).asString = "" := h
  have h2 : (Nat.toDigits 10 now) = [] := by
    have := congrArg String.data h1
    simpa using this
  have h3 := toDigitsCore_length_pos 10 now now []
  rw [Nat.toDigits] at h2
  rw [h2] at h3
  simp at h3

theorem body_strictEq_undefined_iff (b : BodyVal) :
    b.strictEq .undefined = true ↔ b = .val .undefined := by
  cases b with
  | val v => simp [BodyVal.strictEq, strictEq_undefined_iff]
  | infinity n => simp [BodyVal.strictEq]
  | lossyArr t => simp [BodyVal.strictEq]
  | lossyObj t => simp [BodyVal.strictEq]

theorem body_str_strictEq_iff (s : String) (v : JVal) :
    (BodyVal.val (.str s)).strictEq v = true ↔ v = .str s := by
  simp only [BodyVal.strictEq]
  exact str_strictEq_iff v s

theorem body_typeOf_string (b : BodyVal) (h : b.typeOf = .string) :
    ∃ s, b = .val (.str s) := by
  cases b with
  | val v =>
    cases v <;> simp [BodyVal.typeOf, JVal.typeOf] at h
    exact ⟨_, rfl⟩
  | infinity n => simp [BodyVal.typeOf] at h
  | lossyArr t => simp [BodyVal.typeOf] at h
  | lossyObj t => simp [BodyVal.typeOf] at h

theorem idadeInvalida_false (b : BodyVal) (h : idadeInvalida b = false) :
    (∃ q, b = .val (.num q) ∧ 16 ≤ q) ∨ b = .infinity false := by
  cases b with
  | val v =>
    cases v <;> simp [idadeInvalida] at h
    exact Or.inl ⟨_, rfl, h⟩
  | infinity n =>
    simp [idadeInvalida] at h
    subst h
    exact Or.inr rfl
  | lossyArr t => simp [idadeInvalida] at h
  | lossyObj t => simp [idadeInvalida] at h

theorem postParticipants_cases (now : Nat) (diskOk : Bool) (body : Body)
    (stored : List Participant) :
    ((postParticipants now diskOk body stored).persisted = stored ∧
        (postParticipants now diskOk body stored).response.status ≠ 201)
      ∨ (postParticipants now diskOk body stored =
            ⟨⟨201, .mensagemData "Participante cadastrado com sucesso!"
              (novoParticipante now body)⟩, stored ++ [novoParticipante now body]⟩
          ∧ diskOk = true
          ∧ (∃ s, body.email = .val (.str s) ∧ s ≠ "")
          ∧ ((∃ q, body.idade = .val (.num q) ∧ 16 ≤ q) ∨ body.idade = .infinity false)
          ∧ ∀ p ∈ stored, p.email ≠ body.email.written) := by
  unfold postParticipants
  by_cases h1 : (!body.nome.truthy || !body.email.truthy || !body.senha.truthy
      || !body.idade.truthy || !body.cidade.truthy) = true
  · rw [if_pos h1]; left; simp
  rw [if_neg h1]
  by_cases h2 : (body.nome.typeOf != .string || body.email.typeOf != .string
      || body.senha.typeOf != .string || body.cidade.typeOf != .string) = true
  · rw [if_pos h2]; left; simp
  rw [if_neg h2]
  by_cases h3 : idadeInvalida body.idade = true
  · rw [if_pos h3]; left; simp
  rw [if_neg h3]
  dsimp only
  by_cases h4 : (stored.any (fun p => body.email.strictEq p.email)) = true
  · rw [if_pos h4]; left; simp
  rw [if_neg h4]
  by_cases h5 : diskOk = true
  · rw [if_pos h5]
    right
    have h1a : body.email.truthy = true := by
      simp only [Bool.or_eq_true, Bool.not_eq_true', not_or, Bool.not_eq_false] at h1
      exact h1.1.1.1.2
    have h2a : body.email.typeOf = .string := by
      simp only [Bool.or_eq_true, bne_iff_ne, ne_eq, not_or, not_not] at h2
      exact h2.1.1.2
    have hs : ∃ s, body.email = .val (.str s) ∧ s ≠ "" := by
      obtain ⟨s, hs⟩ := body_typeOf_string _ h2a
      refine ⟨s, hs, ?_⟩
      rw [hs] at h1a
      simpa [BodyVal.truthy, JVal.truthy] using h1a
    refine ⟨rfl, h5, hs, idadeInvalida_false _ (by simpa using h3), ?_⟩
    intro p hp he
    obtain ⟨s, hb, -⟩ := hs
    simp only [List.any_eq_true, not_exists, not_and] at h4
    apply h4 p hp
    rw [hb, body_str_strictEq_iff, he, hb]
    rfl
  · rw [if_neg h5]; left; simp

theorem putParticipant_cases (diskOk : Bool) (id : String) (body : Body)
    (stored : List Participant) :
    ((putParticipant diskOk id body stored).persisted = stored ∧
        (putParticipant diskOk id body stored).response.status ≠ 200)
      ∨ ∃ i e, findIndex (fun p => p.id.strictEq (.str id)) stored = some i
          ∧ stored[i]? = some e
          ∧ diskOk = true
          ∧ (body.idade = .val .undefined ∨ (∃ q, body.idade = .val (.num q) ∧ 16 ≤ q)
              ∨ body.idade = .infinity false)
          ∧ ¬ (body.email.truthy = true ∧ body.email.strictEq e.email = false
                ∧ ∃ p ∈ stored, body.email.strictEq p.email = true)
          ∧ putParticipant diskOk id body stored =
              ⟨⟨200, .mensagemData "Participante atualizado com sucesso!"
                (participanteAtualizado e body)⟩,
                stored.set i (participanteAtualizado e body)⟩ := by
  unfold putParticipant
  by_cases h1 : (!body.nome.truthy && !body.email.truthy && !body.senha.truthy
      && !body.idade.truthy && !body.cidade.truthy) = true
  · rw [if_pos h1]; left; simp
  rw [if_neg h1]
  by_cases h2 : (!body.idade.strictEq .undefined && idadeInvalida body.idade) = true
  · rw [if_pos h2]; left; simp
  rw [if_neg h2]
  dsimp only
  cases hi : findIndex (fun p => p.id.strictEq (.str id)) stored with
  | none => left; simp
  | some i =>
    dsimp only
    cases he : stored[i]? with
    | none => left; simp
    | some e =>
      dsimp only
      by_cases h3 : (body.email.truthy && !body.email.strictEq e.email
            && stored.any (fun p => body.email.strictEq p.email)) = true
      · rw [if_pos h3]; left; simp
      rw [if_neg h3]
      by_cases h4 : diskOk = true
      · rw [if_pos h4]
        right
        refine ⟨i, e, rfl, he, h4, ?_, ?_, rfl⟩
        · by_cases hu : body.idade = .val .undefined
          · exact Or.inl hu
          · right
            apply idadeInvalida_false
            have hne : body.idade.strictEq .undefined = false := by
              cases hb : body.idade.strictEq .undefined
              · rfl
              · exact absurd ((body_strictEq_undefined_iff _).mp hb) hu
            simpa [hne] using h2
        · simpa using h3
      · rw [if_neg h4]; left; simp

theorem deleteParticipant_cases (diskOk : Bool) (id : String)
    (stored : List Participant) :
    ((deleteParticipant diskOk id stored).persisted = stored ∧
        (deleteParticipant diskOk id stored).response.status ≠ 200)
      ∨ ∃ i e, findIndex (fun p => p.id.strictEq (.str id)) stored = some i
          ∧ stored[i]? = some e
          ∧ diskOk = true
          ∧ deleteParticipant diskOk id stored =
              ⟨⟨200, .mensagemData "Participante removido com sucesso!" e⟩,
                stored.eraseIdx i⟩ := by
  unfold deleteParticipant
  dsimp only
  cases hi : findIndex (fun p => p.id.strictEq (.str id)) stored with
  | none => left; simp
  | some i =>
    dsimp only
    cases he : stored[i]? with
    | none => left; simp
    | some e =>
      dsimp only
      by_cases h4 : diskOk = true
      · rw [if_pos h4]
        right
        exact ⟨i, e, rfl, he, h4, rfl⟩
      · rw [if_neg h4]; left; simp

theorem map_set_same {α β : Type} (f : α → β) (l : List α) (i : Nat) (e x : α)
    (he : l[i]? = some e) (hx : f x = f e) : (l.set i x).map f = l.map f := by
  induction l generalizing i with
  | nil => simp
  | cons a t ih =>
    cases i with
    | zero =>
      simp at he
      subst he
      simp [hx]
    | succ k =>
      simp at he
      simp [ih k he]

theorem putParticipant_idsDistinct (diskOk : Bool) (id : String) (body : Body)
    (stored : List Participant) (h : idsDistinct stored) :
    idsDistinct (putParticipant diskOk id body stored).persisted := by
  rcases putParticipant_cases diskOk id body stored with ⟨hp, -⟩ | ⟨i, e, -, he, -, -, -, hp⟩
  · rw [hp]; exact h
  · rw [hp]
    show ((stored.set i (participanteAtualizado e body)).map Participant.id).Nodup
    rw [map_set_same Participant.id stored i e (participanteAtualizado e body) he rfl]
    exact h

theorem deleteParticipant_sublist (diskOk : Bool) (id : String)
    (stored : List Participant) :
    (deleteParticipant diskOk id stored).persisted.Sublist stored := by
  rcases deleteParticipant_cases diskOk id stored with ⟨hp, -⟩ | ⟨i, e, -, -, -, hp⟩
  · rw [hp]
  · rw [hp]; exact List.eraseIdx_sublist stored i

theorem overlay_keep (b : BodyVal) (x : JVal) (h : b = .val .undefined) :
    (if (!b.strictEq .undefined) = true then b.written else x) = x := by
  subst h
  simp [BodyVal.strictEq, JVal.strictEq]

theorem overlay_take (b : BodyVal) (x : JVal) (h : b ≠ .val .undefined) :
    (if (!b.strictEq .undefined) = true then b.written else x) = b.written := by
  have : b.strictEq .undefined = false := by
    cases hb : b.strictEq .undefined
    · rfl
    · exact absurd ((body_strictEq_undefined_iff b).mp hb) h
  simp [this]

/-- Where email uniqueness does hold: registration and delete keep the stored
emails pairwise distinct for every request, and so does an update whose body
supplies no email or a non-empty string email. -/
theorem emailsDistinct_kept (now : Nat) (diskOk : Bool) (id : String) (body : Body)
    (stored : List Participant) (h : emailsDistinct stored) :
    emailsDistinct (postParticipants now diskOk body stored).persisted
      ∧ emailsDistinct (deleteParticipant diskOk id stored).persisted
      ∧ ((body.email = .val .undefined ∨ ∃ s, body.email = .val (.str s) ∧ s ≠ "") →
        emailsDistinct (putParticipant diskOk id body stored).persisted) := by
  refine ⟨?_, h.sublist ((deleteParticipant_sublist diskOk id stored).map _), ?_⟩
  · rcases postParticipants_cases now diskOk body stored with ⟨hp, -⟩ | ⟨hp, -, -, -, hfresh⟩
    · rw [hp]; exact h
    · rw [hp]
      show ((stored ++ [novoParticipante now body]).map Participant.email).Nodup
      rw [List.map_append, List.nodup_append]
      refine ⟨h, by simp, ?_⟩
      intro a ha hb
      simp only [List.map_cons, List.map_nil, List.mem_singleton] at hb
      obtain ⟨p, hp1, hp2⟩ := List.mem_map.mp ha
      exact hfresh p hp1 (hp2.trans hb)
  · intro hb
    rcases putParticipant_cases diskOk id body stored with
      ⟨hp, -⟩ | ⟨i, e, -, he, -, -, hc, hp⟩
    · rw [hp]; exact h
    · rw [hp]
      show ((stored.set i (participanteAtualizado e body)).map Participant.email).Nodup
      rcases hb with hu | ⟨s, hs, hne⟩
      · rw [map_set_same Participant.email stored i e _ he (overlay_keep _ _ hu)]
        exact h
      · have hnew : (participanteAtualizado e body).email = .str s := by
          show (if (!body.email.strictEq .undefined) = true then body.email.written
            else e.email) = .str s
          rw [overlay_take _ _ (by rw [hs]; simp), hs]
          rfl
        by_cases hsame : e.email = .str s
        · rw [map_set_same Participant.email stored i e _ he (hnew.trans hsame.symm)]
          exact h
        · rw [List.map_set, hnew]
          apply List.Nodup.set h
          intro hmem
          obtain ⟨p, hp1, hp2⟩ := List.mem_map.mp hmem
          apply hc
          refine ⟨by simp [hs, BodyVal.truthy, JVal.truthy, hne], ?_, p, hp1, ?_⟩
          · cases hq : body.email.strictEq e.email
            · rfl
            · rw [hs] at hq
              exact absurd ((body_str_strictEq_iff _ _).mp hq) hsame
          · rw [hs]
            exact (body_str_strictEq_iff _ _).mpr hp2

/-! ## Claims -/

/-- C1: email uniqueness is not preserved by the update handler.  Starting from
the empty collection, two registrations and one update lead to a collection
with pairwise distinct emails; the update `PUT /participants/2` whose body
supplies a name and the empty string as email is answered with 200 and persists
two participants with the same email `""`.  The conflict test of the handler is
guarded by the truthiness of `email`, the overlay only by `email !== undefined`. -/
theorem email_uniqueness_broken_by_update :
    afterFirstBlank =
        [⟨.str "1", .str "Zed", .str "", .str "s1", .num 20, .str "Recife"⟩,
         ⟨.str "2", .str "Bia", .str "bia@x.com", .str "s2", .num 30, .str "Natal"⟩]
      ∧ emailsDistinct afterFirstBlank
      ∧ (putParticipant true "2" blankEmailBody afterFirstBlank).response.status = 200
      ∧ (putParticipant true "2" blankEmailBody afterFirstBlank).persisted =
        [⟨.str "1", .str "Zed", .str "", .str "s1", .num 20, .str "Recife"⟩,
         ⟨.str "2", .str "Zed", .str "", .str "s2", .num 30, .str "Natal"⟩]
      ∧ ¬ emailsDistinct (putParticipant true "2" blankEmailBody afterFirstBlank).persisted := by
  decide

/-- C2: a GET request for `/participants/count` never reaches the count
handler.  The route `/participants/:id` is registered before
`/participants/count`, so the router selects the fetch-by-id handler with
`id = "count"`; for every stored collection the answer differs from the count
handler's answer, and on the empty collection it is 404. -/
theorem count_route_shadowed (stored : List Participant) :
    dispatch .GET ["participants", "count"] = some (.getParticipantById, ["count"])
      ∧ serveGetCountPath stored = some (getParticipantById "count" stored)
      ∧ serveGetCountPath stored ≠ some (getParticipantsCount stored)
      ∧ serveGetCountPath [] = some ⟨404, .mensagem "Participante não encontrado."⟩ := by
  have hd : dispatch .GET ["participants", "count"] = some (.getParticipantById, ["count"]) := by
    decide
  have hs : serveGetCountPath stored = some (getParticipantById "count" stored) := by
    unfold serveGetCountPath
    rw [hd]
  refine ⟨hd, hs, ?_, by decide⟩
  rw [hs]
  unfold getParticipantById getParticipantsCount
  cases stored.find? (fun p => p.id.strictEq (.str "count")) <;> simp

/-- C3, as stated, fails: with the record of id `"1"` stored and the clock at 1,
a registration is answered with 201 and the returned id `"1"` is already
stored, so the persisted ids are no longer pairwise distinct. -/
theorem id_uniqueness_counterexample :
    idsDistinct [⟨.str "1", .str "Ana", .str "ana@x.com", .str "s1", .num 20, .str "Recife"⟩]
      ∧ (postParticipants 1 true biaBody
          [⟨.str "1", .str "Ana", .str "ana@x.com", .str "s1", .num 20, .str "Recife"⟩]).response
        = ⟨201, .mensagemData "Participante cadastrado com sucesso!"
            ⟨.str "1", .str "Bia", .str "bia@x.com", .str "s2", .num 30, .str "Natal"⟩⟩
      ∧ ¬ idsDistinct (postParticipants 1 true biaBody
          [⟨.str "1", .str "Ana", .str "ana@x.com", .str "s1", .num 20, .str "Recife"⟩]).persisted := by
  decide

theorem digitChar_value (k : Nat) (h : k < 10) : (Nat.digitChar k).toNat - 48 = k := by
  interval_cases k <;> rfl

theorem toDigitsCore_append (b fuel n : Nat) (ds : List Char) :
    Nat.toDigitsCore b fuel n ds = Nat.toDigitsCore b fuel n [] ++ ds := by
  induction fuel generalizing n ds with
  | zero => simp [Nat.toDigitsCore]
  | succ k ih =>
    simp only [Nat.toDigitsCore]
    split
    · simp
    · rw [ih (n / b) (Nat.digitChar (n % b) :: ds), ih (n / b) [Nat.digitChar (n % b)]]
      simp

theorem toDigitsCore_value (fuel n : Nat) (h : n < fuel) :
    (Nat.toDigitsCore 10 fuel n []).foldl (fun m c => m * 10 + (c.toNat - 48)) 0 = n := by
  induction fuel generalizing n with
  | zero => omega
  | succ k ih =>
    simp only [Nat.toDigitsCore]
    split
    · rename_i h0
      have hn : n < 10 := by
        rcases Nat.lt_or_ge n 10 with hl | hl
        · exact hl
        · have : 0 < n / 10 := Nat.div_pos hl (by decide)
          omega
      simp only [List.foldl_cons, List.foldl_nil, Nat.zero_mul, Nat.zero_add]
      rw [digitChar_value _ (Nat.mod_lt _ (by decide)), Nat.mod_eq_of_lt hn]
    · rename_i h0
      rw [toDigitsCore_append, List.foldl_append]
      have hlt : n / 10 < k := by
        have : n / 10 < n := Nat.div_lt_self (by omega) (by decide)
        omega
      rw [ih (n / 10) hlt]
      simp only [List.foldl_cons, List.foldl_nil]
      rw [digitChar_value _ (Nat.mod_lt _ (by decide))]
      omega

theorem dateNowToString_injective (a b : Nat) (h : dateNowToString a = dateNowToString b) :
    a = b := by
  have h1 : (Nat.toDigits 10 a).asString = (Nat.toDigits 10 b).asString := h
  have h2 : Nat.toDigits 10 a = Nat.toDigits 10 b := by
    have := congrArg String.data h1
    simpa using this
  have ha := toDigitsCore_value (a + 1) a (Nat.lt_succ_self a)
  have hb := toDigitsCore_value (b + 1) b (Nat.lt_succ_self b)
  unfold Nat.toDigits at h2
  rw [h2, hb] at ha
  exact ha.symm

/-- C3, amended: for a collection with pairwise distinct ids in which every id
is the decimal string of a clock value other than the present one (each was
issued at another millisecond), a registration answered with 201 returns a
record whose id is the decimal string of the present clock value, a non-empty
string different from every stored id, and the persisted ids are again pairwise
distinct; update and delete keep the ids pairwise distinct for every request. -/
theorem id_uniqueness_preserved (now : Nat) (diskOk : Bool) (id : String) (body : Body)
    (stored : List Participant) (hd : idsDistinct stored) :
    ((postParticipants now diskOk body stored).response.status = 201 →
        (∀ p ∈ stored, ∃ t : Nat, t ≠ now ∧ p.id = .str (dateNowToString t)) →
        ∃ (r : Participant) (s : String),
          (postParticipants now diskOk body stored).response.body =
              .mensagemData "Participante cadastrado com sucesso!" r
            ∧ r.id = .str s ∧ s = String.mk (Nat.toDigits 10 now) ∧ s ≠ ""
            ∧ (∀ p ∈ stored, p.id ≠ r.id)
            ∧ idsDistinct (postParticipants now diskOk body stored).persisted)
      ∧ idsDistinct (putParticipant diskOk id body stored).persisted
      ∧ idsDistinct (deleteParticipant diskOk id stored).persisted := by
  refine ⟨?_, putParticipant_idsDistinct diskOk id body stored hd,
    hd.sublist ((deleteParticipant_sublist diskOk id stored).map _)⟩
  intro hs hissued
  have hfresh : ∀ p ∈ stored, p.id ≠ .str (dateNowToString now) := by
    intro p hp heq
    obtain ⟨t, ht, hpt⟩ := hissued p hp
    rw [hpt] at heq
    exact ht (dateNowToString_injective t now (JVal.str.inj heq))
  rcases postParticipants_cases now diskOk body stored with ⟨-, hne⟩ | ⟨hp, -⟩
  · exact absurd hs hne
  · rw [hp]
    refine ⟨novoParticipante now body, dateNowToString now, rfl, rfl, rfl,
      dateNowToString_ne_empty now, hfresh, ?_⟩
    show ((stored ++ [novoParticipante now body]).map Participant.id).Nodup
    rw [List.map_append, List.nodup_append]
    refine ⟨hd, by simp, ?_⟩
    intro a ha hb
    simp only [List.map_cons, List.map_nil, List.mem_singleton] at hb
    obtain ⟨p, hp1, hp2⟩ := List.mem_map.mp ha
    exact hfresh p hp1 (hp2.trans hb)

/-- Witness for C3: with Ana and Bia stored under the ids issued at clocks 1
and 2, Caio registers at clock 3 and gets the id `"3"`; an update of Bia and a
delete of Ana leave the ids pairwise distinct. -/
theorem id_uniqueness_preserved_witness :
    idsDistinct anaBia
      ∧ (postParticipants 3 true caioBody anaBia).response.status = 201
      ∧ (∀ p ∈ anaBia, ∃ t : Nat, t ≠ 3 ∧ p.id = .str (dateNowToString t))
      ∧ (postParticipants 3 true caioBody anaBia).persisted.map Participant.id =
          [.str "1", .str "2", .str "3"]
      ∧ (∃ (r : Participant) (s : String),
          (postParticipants 3 true caioBody anaBia).response.body =
              .mensagemData "Participante cadastrado com sucesso!" r
            ∧ r.id = .str s ∧ s = String.mk (Nat.toDigits 10 3) ∧ s ≠ ""
            ∧ (∀ p ∈ anaBia, p.id ≠ r.id)
            ∧ idsDistinct (postParticipants 3 true caioBody anaBia).persisted)
      ∧ (putParticipant true "2" cidadeOnlyBody anaBia).response.status = 200
      ∧ idsDistinct (putParticipant true "2" cidadeOnlyBody anaBia).persisted
      ∧ (deleteParticipant true "1" anaBia).response.status = 200
      ∧ idsDistinct (deleteParticipant true "1" anaBia).persisted :=
  have hissued : ∀ p ∈ anaBia, ∃ t : Nat, t ≠ 3 ∧ p.id = .str (dateNowToString t) := by
    intro p hp
    have hmem : p = ⟨.str "1", .str "Ana", .str "ana@x.com", .str "s1", .num 20, .str "Recife"⟩
        ∨ p = ⟨.str "2", .str "Bia", .str "bia@x.com", .str "s2", .num 30, .str "Natal"⟩ := by
      have h2 : anaBia =
          [⟨.str "1", .str "Ana", .str "ana@x.com", .str "s1", .num 20, .str "Recife"⟩,
           ⟨.str "2", .str "Bia", .str "bia@x.com", .str "s2", .num 30, .str "Natal"⟩] := by
        decide
      rw [h2] at hp
      simpa using hp
    rcases hmem with h | h
    · exact ⟨1, by decide, by rw [h]; decide⟩
    · exact ⟨2, by decide, by rw [h]; decide⟩
  ⟨by decide, by decide, hissued, by decide,
    (id_uniqueness_preserved 3 true "2" caioBody anaBia (by decide)).1 (by decide) hissued,
    by decide,
    (id_uniqueness_preserved 3 true "2" cidadeOnlyBody anaBia (by decide)).2.1,
    by decide,
    (id_uniqueness_preserved 3 true "1" caioBody anaBia (by decide)).2.2⟩

/-- Where the age bound does hold: if every stored participant has a numeric
`idade` of at least 16, so has every persisted participant after a delete, and
after a registration or an update whose body does not carry `Infinity` as
idade. -/
theorem idade_bound_kept (now : Nat) (diskOk : Bool) (id : String) (body : Body)
    (stored : List Participant) (h : ∀ p ∈ stored, idadeOk p)
    (hfin : body.idade ≠ .infinity false) :
    (∀ p ∈ (postParticipants now diskOk body stored).persisted, idadeOk p)
      ∧ (∀ p ∈ (putParticipant diskOk id body stored).persisted, idadeOk p)
      ∧ (∀ p ∈ (deleteParticipant diskOk id stored).persisted, idadeOk p) := by
  refine ⟨?_, ?_, ?_⟩
  · rcases postParticipants_cases now diskOk body stored with ⟨hp, -⟩ | ⟨hp, -, -, hq, -⟩
    · rw [hp]; exact h
    · rw [hp]
      intro p hmem
      rcases List.mem_append.mp hmem with hm | hm
      · exact h p hm
      · rw [List.mem_singleton] at hm
        subst hm
        rcases hq with ⟨q, hq1, hq2⟩ | hinf
        · exact ⟨q, by show body.idade.written = .num q; rw [hq1]; rfl, hq2⟩
        · exact absurd hinf hfin
  · rcases putParticipant_cases diskOk id body stored with
      ⟨hp, -⟩ | ⟨i, e, -, he, -, hq, -, hp⟩
    · rw [hp]; exact h
    · rw [hp]
      intro p hmem
      rcases List.mem_or_eq_of_mem_set hmem with hm | hm
      · exact h p hm
      · subst hm
        have hemem : e ∈ stored := List.getElem?_mem he
        rcases hq with hu | ⟨q, hq1, hq2⟩ | hinf
        · obtain ⟨q, hq1, hq2⟩ := h e hemem
          refine ⟨q, ?_, hq2⟩
          show (if (!body.idade.strictEq .undefined) = true then body.idade.written
            else e.idade) = .num q
          rw [overlay_keep _ _ hu, hq1]
        · refine ⟨q, ?_, hq2⟩
          show (if (!body.idade.strictEq .undefined) = true then body.idade.written
            else e.idade) = .num q
          rw [overlay_take _ _ (by rw [hq1]; simp), hq1]
          rfl
        · exact absurd hinf hfin
  · intro p hmem
    exact h p ((deleteParticipant_sublist diskOk id stored).subset hmem)

/-- C4: the age bound is not preserved.  The numeral `1e400` is read as
`Infinity`, which is a number and not below 16, so the tests at lines 52 and
107 let it pass; `JSON.stringify` then writes it as `null`.  With Ana and Bia
stored, both with a numeric idade of at least 16, the registration of a body
with idade `1e400` is answered with 201 and the update of Ana with idade
`1e400` is answered with 200, and each persists a participant whose idade is
`null`. -/
theorem idade_bound_broken_by_infinity :
    (∀ p ∈ anaBia, idadeOk p)
      ∧ (postParticipants 3 true infinityBody anaBia).response.status = 201
      ∧ (postParticipants 3 true infinityBody anaBia).persisted =
        [⟨.str "1", .str "Ana", .str "ana@x.com", .str "s1", .num 20, .str "Recife"⟩,
         ⟨.str "2", .str "Bia", .str "bia@x.com", .str "s2", .num 30, .str "Natal"⟩,
         ⟨.str "3", .str "Eva", .str "eva@x.com", .str "s4", .null, .str "Recife"⟩]
      ∧ ¬ (∀ p ∈ (postParticipants 3 true infinityBody anaBia).persisted, idadeOk p)
      ∧ (putParticipant true "1" infinityIdadeBody anaBia).response.status = 200
      ∧ (putParticipant true "1" infinityIdadeBody anaBia).persisted =
        [⟨.str "1", .str "Ana", .str "ana@x.com", .str "s1", .null, .str "Recife"⟩,
         ⟨.str "2", .str "Bia", .str "bia@x.com", .str "s2", .num 30, .str "Natal"⟩]
      ∧ ¬ (∀ p ∈ (putParticipant true "1" infinityIdadeBody anaBia).persisted, idadeOk p) := by
  have hpost : (postParticipants 3 true infinityBody anaBia).persisted =
      [⟨.str "1", .str "Ana", .str "ana@x.com", .str "s1", .num 20, .str "Recife"⟩,
       ⟨.str "2", .str "Bia", .str "bia@x.com", .str "s2", .num 30, .str "Natal"⟩,
       ⟨.str "3", .str "Eva", .str "eva@x.com", .str "s4", .null, .str "Recife"⟩] := by
    decide
  have hput : (putParticipant true "1" infinityIdadeBody anaBia).persisted =
      [⟨.str "1", .str "Ana", .str "ana@x.com", .str "s1", .null, .str "Recife"⟩,
       ⟨.str "2", .str "Bia", .str "bia@x.com", .str "s2", .num 30, .str "Natal"⟩] := by
    decide
  have hab : anaBia =
      [⟨.str "1", .str "Ana", .str "ana@x.com", .str "s1", .num 20, .str "Recife"⟩,
       ⟨.str "2", .str "Bia", .str "bia@x.com", .str "s2", .num 30, .str "Natal"⟩] := by
    decide
  refine ⟨?_, by decide, hpost, ?_, by decide, hput, ?_⟩
  · intro p hp
    rw [hab] at hp
    simp only [List.mem_cons, List.mem_singleton, List.not_mem_nil, or_false] at hp
    rcases hp with h | h
    · exact ⟨20, by rw [h], by norm_num⟩
    · exact ⟨30, by rw [h], by norm_num⟩
  · intro hall
    rw [hpost] at hall
    obtain ⟨q, hq, -⟩ := hall ⟨.str "3", .str "Eva", .str "eva@x.com", .str "s4", .null,
      .str "Recife"⟩ (by simp)
    simp at hq
  · intro hall
    rw [hput] at hall
    obtain ⟨q, hq, -⟩ := hall ⟨.str "1", .str "Ana", .str "ana@x.com", .str "s1", .null,
      .str "Recife"⟩ (by simp)
    simp at hq

theorem not_truthy_iff_falsy (b : BodyVal) : b.truthy = false ↔ b.falsy := by
  cases b with
  | val v => cases v <;> simp [BodyVal.truthy, JVal.truthy, BodyVal.falsy]
  | infinity n => simp [BodyVal.truthy, BodyVal.falsy]
  | lossyArr t => simp [BodyVal.truthy, BodyVal.falsy]
  | lossyObj t => simp [BodyVal.truthy, BodyVal.falsy]

theorem typeOf_string_iff (b : BodyVal) : b.typeOf = .string ↔ b.isStr := by
  cases b with
  | val v => cases v <;> simp [BodyVal.typeOf, JVal.typeOf, BodyVal.isStr]
  | infinity n => simp [BodyVal.typeOf, BodyVal.isStr]
  | lossyArr t => simp [BodyVal.typeOf, BodyVal.isStr]
  | lossyObj t => simp [BodyVal.typeOf, BodyVal.isStr]

theorem idadeInvalida_iff (b : BodyVal) : idadeInvalida b = true ↔ ¬ b.isNumAtLeast 16 := by
  cases b with
  | val v => cases v <;> simp [idadeInvalida, BodyVal.isNumAtLeast]
  | infinity n => cases n <;> simp [idadeInvalida, BodyVal.isNumAtLeast]
  | lossyArr t => simp [idadeInvalida, BodyVal.isNumAtLeast]
  | lossyObj t => simp [idadeInvalida, BodyVal.isNumAtLeast]

theorem any_email_iff (body : Body) (stored : List Participant) (h : body.email.isStr) :
    stored.any (fun p => body.email.strictEq p.email) = true ↔ emailTaken body stored := by
  obtain ⟨s, hs⟩ := h
  simp only [List.any_eq_true, emailTaken, hs, body_str_strictEq_iff, BodyVal.val.injEq]

theorem postParticipants_status (now : Nat) (diskOk : Bool) (body : Body)
    (stored : List Participant) :
    (registrationInvalid body ∧
        (postParticipants now diskOk body stored).response.status = 400)
      ∨ (¬ registrationInvalid body ∧ emailTaken body stored ∧
        (postParticipants now diskOk body stored).response.status = 409)
      ∨ (¬ registrationInvalid body ∧ ¬ emailTaken body stored ∧ diskOk = true ∧
        (postParticipants now diskOk body stored).response.status = 201)
      ∨ (¬ registrationInvalid body ∧ ¬ emailTaken body stored ∧ diskOk = false ∧
        (postParticipants now diskOk body stored).response.status = 500) := by
  unfold postParticipants
  by_cases h1 : (!body.nome.truthy || !body.email.truthy || !body.senha.truthy
      || !body.idade.truthy || !body.cidade.truthy) = true
  · rw [if_pos h1]
    left
    refine ⟨Or.inl ?_, rfl⟩
    simpa only [Bool.or_eq_true, Bool.not_eq_true', not_truthy_iff_falsy, or_assoc] using h1
  rw [if_neg h1]
  have h1' : ¬ (body.nome.falsy ∨ body.email.falsy ∨ body.senha.falsy ∨ body.idade.falsy
      ∨ body.cidade.falsy) := by
    simpa only [Bool.or_eq_true, Bool.not_eq_true', not_truthy_iff_falsy, or_assoc] using h1
  by_cases h2 : (body.nome.typeOf != .string || body.email.typeOf != .string
      || body.senha.typeOf != .string || body.cidade.typeOf != .string) = true
  · rw [if_pos h2]
    left
    refine ⟨Or.inr (Or.inl ?_), rfl⟩
    simpa only [Bool.or_eq_true, bne_iff_ne, ne_eq, typeOf_string_iff, or_assoc] using h2
  rw [if_neg h2]
  have h2' : ¬ (¬ body.nome.isStr ∨ ¬ body.email.isStr ∨ ¬ body.senha.isStr
      ∨ ¬ body.cidade.isStr) := by
    simpa only [Bool.or_eq_true, bne_iff_ne, ne_eq, typeOf_string_iff, or_assoc] using h2
  by_cases h3 : idadeInvalida body.idade = true
  · rw [if_pos h3]
    left
    exact ⟨Or.inr (Or.inr ((idadeInvalida_iff _).mp h3)), rfl⟩
  rw [if_neg h3]
  have h3' : ¬ ¬ body.idade.isNumAtLeast 16 := fun hn => h3 ((idadeInvalida_iff _).mpr hn)
  have hvalid : ¬ registrationInvalid body := by
    rintro (h | h | h)
    · exact h1' h
    · exact h2' h
    · exact h3' h
  have hstr : body.email.isStr := by
    by_contra hc
    exact h2' (Or.inr (Or.inl hc))
  dsimp only
  by_cases h4 : (stored.any (fun p => body.email.strictEq p.email)) = true
  · rw [if_pos h4]
    right; left
    exact ⟨hvalid, (any_email_iff body stored hstr).mp h4, rfl⟩
  rw [if_neg h4]
  have h4' : ¬ emailTaken body stored := fun hn => h4 ((any_email_iff body stored hstr).mpr hn)
  by_cases h5 : diskOk = true
  · rw [if_pos h5]
    right; right; left
    exact ⟨hvalid, h4', h5, rfl⟩
  · rw [if_neg h5]
    right; right; right
    exact ⟨hvalid, h4', by simpa using h5, rfl⟩

/-- C5: the status of a registration is fully determined.  It is 400 exactly
when a field is missing or falsy, or one of nome, email, senha, cidade is not a
string, or idade is not a number of at least 16; otherwise 409 exactly when a
stored participant has the same email; otherwise 201 when the save succeeds and
500 when it fails.  In particular idade 15 and idade "20" give 400 whatever the
other fields are, and idade 16 with the other fields valid does not. -/
theorem registration_status_determined (now : Nat) (diskOk : Bool) (body : Body)
    (stored : List Participant) :
    ((postParticipants now diskOk body stored).response.status = 400 ↔
        registrationInvalid body)
      ∧ ((postParticipants now diskOk body stored).response.status = 409 ↔
        ¬ registrationInvalid body ∧ emailTaken body stored)
      ∧ ((postParticipants now diskOk body stored).response.status = 201 ↔
        ¬ registrationInvalid body ∧ ¬ emailTaken body stored ∧ diskOk = true)
      ∧ ((postParticipants now diskOk body stored).response.status = 500 ↔
        ¬ registrationInvalid body ∧ ¬ emailTaken body stored ∧ diskOk = false)
      ∧ (postParticipants now diskOk { body with idade := .val (.num 15) } stored).response.status
          = 400
      ∧ (postParticipants now diskOk { body with idade := .val (.str "20") } stored).response.status
          = 400
      ∧ (postParticipants now diskOk
          ⟨.val (.str "Ana"), .val (.str "ana@x.com"), .val (.str "s1"), .val (.num 16),
            .val (.str "Recife")⟩ stored).response.status
          ≠ 400 := by
  have key := postParticipants_status now diskOk body stored
  refine ⟨?_, ?_, ?_, ?_, ?_, ?_, ?_⟩
  · rcases key with ⟨a, h⟩ | ⟨a, b, h⟩ | ⟨a, b, c, h⟩ | ⟨a, b, c, h⟩ <;> rw [h] <;> simp [*]
  · rcases key with ⟨a, h⟩ | ⟨a, b, h⟩ | ⟨a, b, c, h⟩ | ⟨a, b, c, h⟩ <;> rw [h] <;> simp [*]
  · rcases key with ⟨a, h⟩ | ⟨a, b, h⟩ | ⟨a, b, c, h⟩ | ⟨a, b, c, h⟩ <;> rw [h] <;>
      simp [*]
  · rcases key with ⟨a, h⟩ | ⟨a, b, h⟩ | ⟨a, b, c, h⟩ | ⟨a, b, c, h⟩ <;> rw [h] <;>
      simp [*]
  · rcases postParticipants_status now diskOk { body with idade := .val (.num 15) } stored with
      ⟨-, h⟩ | ⟨a, -⟩ | ⟨a, -⟩ | ⟨a, -⟩
    · exact h
    all_goals
      exact absurd (Or.inr (Or.inr (by simp [BodyVal.isNumAtLeast]; norm_num))) a
  · rcases postParticipants_status now diskOk { body with idade := .val (.str "20") } stored with
      ⟨-, h⟩ | ⟨a, -⟩ | ⟨a, -⟩ | ⟨a, -⟩
    · exact h
    all_goals
      exact absurd (Or.inr (Or.inr (by simp [BodyVal.isNumAtLeast]))) a
  · rcases postParticipants_status now diskOk
      ⟨.val (.str "Ana"), .val (.str "ana@x.com"), .val (.str "s1"), .val (.num 16),
            .val (.str "Recife")⟩ stored with
      ⟨a, -⟩ | ⟨-, -, h⟩ | ⟨-, -, -, h⟩ | ⟨-, -, -, h⟩
    · exfalso
      rcases a with a | a | a
      · simp [BodyVal.falsy] at a
      · simp [BodyVal.isStr] at a
      · exact a (Or.inl ⟨16, rfl, le_refl _⟩)
    all_goals rw [h]; decide

theorem written_val_of_isStr (b : BodyVal) (h : b.isStr) : BodyVal.val b.written = b := by
  obtain ⟨s, hs⟩ := h
  rw [hs]
  rfl

/-- Where registration does record what was submitted: a registration answered
with 201 persists the previous collection, unchanged and in order, followed by
exactly one new record; that record is the one returned in the response, its
nome, email, senha and cidade are the submitted values, its idade is the
submitted value as `JSON.stringify` writes it, which is the submitted value
unless that is `Infinity`, and its id is the string of the decimal digits of
the clock value. -/
theorem postParticipants_appends (now : Nat) (diskOk : Bool) (body : Body)
    (stored : List Participant)
    (h : (postParticipants now diskOk body stored).response.status = 201) :
    ∃ r : Participant,
      (postParticipants now diskOk body stored).persisted = stored ++ [r]
        ∧ (postParticipants now diskOk body stored).response.body =
            .mensagemData "Participante cadastrado com sucesso!" r
        ∧ .val r.nome = body.nome ∧ .val r.email = body.email ∧ .val r.senha = body.senha
        ∧ .val r.cidade = body.cidade
        ∧ r.idade = body.idade.written
        ∧ (body.idade ≠ .infinity false → .val r.idade = body.idade)
        ∧ r.id = .str (String.mk (Nat.toDigits 10 now)) := by
  have hvalid : ¬ registrationInvalid body := by
    rcases postParticipants_status now diskOk body stored with
      ⟨-, hs⟩ | ⟨-, -, hs⟩ | ⟨a, -⟩ | ⟨-, -, -, hs⟩
    · rw [hs] at h; simp at h
    · rw [hs] at h; simp at h
    · exact a
    · rw [hs] at h; simp at h
  have hstr : body.nome.isStr ∧ body.email.isStr ∧ body.senha.isStr ∧ body.cidade.isStr := by
    unfold registrationInvalid at hvalid
    simp only [not_or, not_not] at hvalid
    exact ⟨hvalid.2.1.1, hvalid.2.1.2.1, hvalid.2.1.2.2.1, hvalid.2.1.2.2.2⟩
  rcases postParticipants_cases now diskOk body stored with ⟨-, hne⟩ | ⟨hp, -, -, hq, -⟩
  · exact absurd h hne
  · rw [hp]
    refine ⟨novoParticipante now body, rfl, rfl, written_val_of_isStr _ hstr.1,
      written_val_of_isStr _ hstr.2.1, written_val_of_isStr _ hstr.2.2.1,
      written_val_of_isStr _ hstr.2.2.2, rfl, ?_, rfl⟩
    intro hfin
    rcases hq with ⟨q, hq1, -⟩ | hinf
    · show BodyVal.val body.idade.written = body.idade
      rw [hq1]
      rfl
    · exact absurd hinf hfin

/-- C6: a registration answered with 201 does not always record the submitted
idade.  With Ana and Bia stored, the registration of a body whose idade is the
numeral `1e400` (read as `Infinity`, accepted at line 52) is answered with 201;
the record appended to the collection and returned in the response has idade
`null`, which is not the submitted value. -/
theorem registration_records_null_idade :
    infinityBody.idade = .infinity false
      ∧ (postParticipants 3 true infinityBody anaBia).response =
          ⟨201, .mensagemData "Participante cadastrado com sucesso!"
            ⟨.str "3", .str "Eva", .str "eva@x.com", .str "s4", .null, .str "Recife"⟩⟩
      ∧ (postParticipants 3 true infinityBody anaBia).persisted =
          anaBia ++ [⟨.str "3", .str "Eva", .str "eva@x.com", .str "s4", .null, .str "Recife"⟩]
      ∧ BodyVal.val JVal.null ≠ infinityBody.idade := by
  decide

theorem filter_one_of_nodup (stored : List Participant) (p : Participant)
    (hd : emailsDistinct stored) (hp : p ∈ stored) :
    (stored.filter (fun x => decide (x.email = p.email))).length = 1 := by
  unfold emailsDistinct at hd
  induction stored with
  | nil => simp at hp
  | cons a t ih =>
    rw [List.map_cons, List.nodup_cons] at hd
    rcases List.mem_cons.mp hp with h | h
    · subst h
      have h0 : t.filter (fun x => decide (x.email = p.email)) = [] := by
        rw [List.filter_eq_nil_iff]
        intro x hx
        have : x.email ≠ p.email := fun heq =>
          hd.1 (heq ▸ List.mem_map_of_mem Participant.email hx)
        simpa using this
      simp [List.filter_cons, h0]
    · have hne : a.email ≠ p.email := fun heq =>
        hd.1 (heq ▸ List.mem_map_of_mem Participant.email h)
      simp only [List.filter_cons, hne, decide_False, Bool.false_eq_true, if_false]
      exact ih hd.2 h

/-- C7, as stated, fails in its last clause: in a collection where two records
carry the email `ana@x.com`, a registration with that email is rejected with
409 and leaves both records, not exactly one. -/
theorem rejected_requests_counterexample :
    (postParticipants 3 true anaBody sharedEmail).response =
        ⟨409, .mensagem "Esse e-mail está cadastrado."⟩
      ∧ (postParticipants 3 true anaBody sharedEmail).persisted = sharedEmail
      ∧ ((postParticipants 3 true anaBody sharedEmail).persisted.filter
          (fun p => decide (BodyVal.val p.email = anaBody.email))).length = 2 := by
  decide

/-- C7, amended: rejected requests have no side effects.  Whenever the
registration, update or delete handler answers 400, 404 or 409, the persisted
collection is the collection before the request, so its length is unchanged;
and when the stored emails are pairwise distinct, a registration rejected with
409 leaves exactly one record with the submitted email. -/
theorem rejected_requests_change_nothing (now : Nat) (diskOk : Bool) (id : String)
    (body : Body) (stored : List Participant) :
    (rejected (postParticipants now diskOk body stored).response.status →
        (postParticipants now diskOk body stored).persisted = stored
          ∧ (postParticipants now diskOk body stored).persisted.length = stored.length)
      ∧ (rejected (putParticipant diskOk id body stored).response.status →
        (putParticipant diskOk id body stored).persisted = stored
          ∧ (putParticipant diskOk id body stored).persisted.length = stored.length)
      ∧ (rejected (deleteParticipant diskOk id stored).response.status →
        (deleteParticipant diskOk id stored).persisted = stored
          ∧ (deleteParticipant diskOk id stored).persisted.length = stored.length)
      ∧ ((postParticipants now diskOk body stored).response.status = 409 →
        emailsDistinct stored →
        ((postParticipants now diskOk body stored).persisted.filter
          (fun p => decide (BodyVal.val p.email = body.email))).length = 1) := by
  refine ⟨?_, ?_, ?_, ?_⟩
  · intro hr
    rcases postParticipants_cases now diskOk body stored with ⟨hp, -⟩ | ⟨hp, -⟩
    · exact ⟨hp, by rw [hp]⟩
    · rw [hp] at hr
      simp [rejected] at hr
  · intro hr
    rcases putParticipant_cases diskOk id body stored with ⟨hp, -⟩ | ⟨i, e, -, -, -, -, -, hp⟩
    · exact ⟨hp, by rw [hp]⟩
    · rw [hp] at hr
      simp [rejected] at hr
  · intro hr
    rcases deleteParticipant_cases diskOk id stored with ⟨hp, -⟩ | ⟨i, e, -, -, -, hp⟩
    · exact ⟨hp, by rw [hp]⟩
    · rw [hp] at hr
      simp [rejected] at hr
  · intro h409 hd
    have hsame : (postParticipants now diskOk body stored).persisted = stored := by
      rcases postParticipants_cases now diskOk body stored with ⟨hp, -⟩ | ⟨hp, -⟩
      · exact hp
      · rw [hp] at h409
        simp at h409
    have htaken : emailTaken body stored := by
      rcases postParticipants_status now diskOk body stored with
        ⟨-, hs⟩ | ⟨-, ht, -⟩ | ⟨-, -, -, hs⟩ | ⟨-, -, -, hs⟩
      · rw [hs] at h409; simp at h409
      · exact ht
      · rw [hs] at h409; simp at h409
      · rw [hs] at h409; simp at h409
    obtain ⟨p, hp, hpe⟩ := htaken
    rw [hsame, ← hpe]
    simp only [BodyVal.val.injEq]
    exact filter_one_of_nodup stored p hd hp

/-- Witness for C7: with Ana and Bia stored, Ana's body is submitted again at
clock 3; the registration is rejected with 409, the collection is unchanged and
holds exactly one record with her email. -/
theorem rejected_requests_change_nothing_witness :
    rejected (postParticipants 3 true anaBody anaBia).response.status
      ∧ (postParticipants 3 true anaBody anaBia).response.status = 409
      ∧ emailsDistinct anaBia
      ∧ ((postParticipants 3 true anaBody anaBia).persisted = anaBia
          ∧ (postParticipants 3 true anaBody anaBia).persisted.length = anaBia.length)
      ∧ ((postParticipants 3 true anaBody anaBia).persisted.filter
          (fun p => decide (BodyVal.val p.email = anaBody.email))).length = 1
      ∧ (rejected (putParticipant true "9" cidadeOnlyBody anaBia).response.status
          ∧ (putParticipant true "9" cidadeOnlyBody anaBia).persisted = anaBia)
      ∧ (rejected (deleteParticipant true "9" anaBia).response.status
          ∧ (deleteParticipant true "9" anaBia).persisted = anaBia) :=
  ⟨by decide, by decide, by decide,
    (rejected_requests_change_nothing 3 true "9" anaBody anaBia).1 (by decide),
    (rejected_requests_change_nothing 3 true "9" anaBody anaBia).2.2.2 (by decide) (by decide),
    ⟨by decide,
      ((rejected_requests_change_nothing 3 true "9" cidadeOnlyBody anaBia).2.1 (by decide)).1⟩,
    ⟨by decide,
      ((rejected_requests_change_nothing 3 true "9" anaBody anaBia).2.2.1 (by decide)).1⟩⟩

theorem find?_id_spec (id : String) (stored : List Participant) (i : Nat) (e : Participant)
    (hi : findIndex (fun p => p.id.strictEq (.str id)) stored = some i)
    (he : stored[i]? = some e) :
    stored.find? (fun p => p.id.strictEq (.str id)) = some e := by
  rw [find?_of_findIndex, hi]
  simpa using he

theorem findIndex_of_find? (id : String) (stored : List Participant) (e : Participant)
    (h : stored.find? (fun p => p.id.strictEq (.str id)) = some e) :
    ∃ i, findIndex (fun p => p.id.strictEq (.str id)) stored = some i ∧ stored[i]? = some e := by
  rw [find?_of_findIndex] at h
  cases hi : findIndex (fun p => p.id.strictEq (.str id)) stored with
  | none => rw [hi] at h; simp at h
  | some i =>
    rw [hi] at h
    exact ⟨i, rfl, by simpa using h⟩

/-- What the update handler overlays: for an update answered with 200, the
returned record, which is also in the persisted collection, has the id of the
record it replaces (the first stored record carrying the path id); each of
nome, email, senha, idade, cidade that the body does not supply keeps that
record's value, and each one the body supplies takes the supplied value as
`JSON.stringify` writes it, which is the supplied value itself unless that is
`Infinity`, `-Infinity` or an array or object holding one. -/
theorem putParticipant_overlay (diskOk : Bool) (id : String) (body : Body)
    (stored : List Participant)
    (h : (putParticipant diskOk id body stored).response.status = 200) :
    ∃ e r : Participant,
      stored.find? (fun p => p.id.strictEq (.str id)) = some e
        ∧ (putParticipant diskOk id body stored).response.body =
            .mensagemData "Participante atualizado com sucesso!" r
        ∧ r ∈ (putParticipant diskOk id body stored).persisted
        ∧ r.id = e.id
        ∧ (body.nome = .val .undefined → r.nome = e.nome)
        ∧ (body.nome ≠ .val .undefined → r.nome = body.nome.written)
        ∧ (body.email = .val .undefined → r.email = e.email)
        ∧ (body.email ≠ .val .undefined → r.email = body.email.written)
        ∧ (body.senha = .val .undefined → r.senha = e.senha)
        ∧ (body.senha ≠ .val .undefined → r.senha = body.senha.written)
        ∧ (body.idade = .val .undefined → r.idade = e.idade)
        ∧ (body.idade ≠ .val .undefined → r.idade = body.idade.written)
        ∧ (body.cidade = .val .undefined → r.cidade = e.cidade)
        ∧ (body.cidade ≠ .val .undefined → r.cidade = body.cidade.written)
        ∧ ∀ v : JVal, (BodyVal.val v).written = v := by
  rcases putParticipant_cases diskOk id body stored with
    ⟨-, hne⟩ | ⟨i, e, hi, he, -, -, -, hp⟩
  · exact absurd h hne
  · rw [hp]
    have hlt : i < stored.length := by
      rcases Nat.lt_or_ge i stored.length with hl | hl
      · exact hl
      · rw [List.getElem?_eq_none hl] at he
        exact absurd he (by simp)
    refine ⟨e, participanteAtualizado e body, find?_id_spec id stored i e hi he, rfl,
      List.mem_set stored i hlt _, rfl, ?_⟩
    exact ⟨overlay_keep _ _, overlay_take _ _, overlay_keep _ _, overlay_take _ _,
      overlay_keep _ _, overlay_take _ _, overlay_keep _ _, overlay_take _ _,
      overlay_keep _ _, overlay_take _ _, fun _ => rfl⟩

/-- C8: an update answered with 200 does not always give a supplied field the
supplied value.  With Ana and Bia stored, `PUT /participants/1` with a body
whose only field is idade, the numeral `1e400` (read as `Infinity`, accepted at
line 107), is answered with 200; the returned and persisted record has idade
`null`, which is not the supplied value.  The other fields and the id keep
their prior values. -/
theorem update_records_null_idade :
    infinityIdadeBody.idade = .infinity false
      ∧ anaBia.find? (fun p => p.id.strictEq (.str "1")) =
          some ⟨.str "1", .str "Ana", .str "ana@x.com", .str "s1", .num 20, .str "Recife"⟩
      ∧ (putParticipant true "1" infinityIdadeBody anaBia).response =
          ⟨200, .mensagemData "Participante atualizado com sucesso!"
            ⟨.str "1", .str "Ana", .str "ana@x.com", .str "s1", .null, .str "Recife"⟩⟩
      ∧ (putParticipant true "1" infinityIdadeBody anaBia).persisted =
          [⟨.str "1", .str "Ana", .str "ana@x.com", .str "s1", .null, .str "Recife"⟩,
           ⟨.str "2", .str "Bia", .str "bia@x.com", .str "s2", .num 30, .str "Natal"⟩]
      ∧ BodyVal.val JVal.null ≠ infinityIdadeBody.idade := by
  decide

/-- C9: update replaces in place.  For an update answered with 200 the persisted
collection has the length of the previous one; the returned record sits at the
position of the first stored record whose id is the path id, and the record at
every other position is unchanged. -/
theorem update_replaces_in_place (diskOk : Bool) (id : String) (body : Body)
    (stored : List Participant)
    (h : (putParticipant diskOk id body stored).response.status = 200) :
    ∃ (i : Nat) (e r : Participant),
      stored[i]? = some e ∧ e.id = .str id
        ∧ (∀ j y, j < i → stored[j]? = some y → y.id ≠ .str id)
        ∧ (putParticipant diskOk id body stored).response.body =
            .mensagemData "Participante atualizado com sucesso!" r
        ∧ (putParticipant diskOk id body stored).persisted.length = stored.length
        ∧ (putParticipant diskOk id body stored).persisted[i]? = some r
        ∧ ∀ j, j ≠ i → (putParticipant diskOk id body stored).persisted[j]? = stored[j]? := by
  rcases putParticipant_cases diskOk id body stored with
    ⟨-, hne⟩ | ⟨i, e, hi, he, -, -, -, hp⟩
  · exact absurd h hne
  · rw [hp]
    obtain ⟨x, hx, hfx, hfirst⟩ := findIndex_eq_some _ stored i hi
    have hxe : x = e := by
      rw [he] at hx
      exact (Option.some.inj hx).symm
    subst hxe
    have hlt : i < stored.length := by
      rcases Nat.lt_or_ge i stored.length with hl | hl
      · exact hl
      · rw [List.getElem?_eq_none hl] at he
        exact absurd he (by simp)
    refine ⟨i, x, participanteAtualizado x body, he, (strictEq_str_iff _ _).mp hfx, ?_, rfl,
      by simp, by simp [hlt], ?_⟩
    · intro j y hj hy hid
      have := hfirst j y hj hy
      rw [(strictEq_str_iff _ _).mpr hid] at this
      exact absurd this (by simp)
    · intro j hj
      simp [List.getElem?_set_ne (Ne.symm hj)]

/-- Witness for C9: with Ana and Bia stored, `PUT /participants/2` with only
`cidade` in the body leaves Ana at position 0 and puts the new record at
position 1. -/
theorem update_replaces_in_place_witness :
    (putParticipant true "2" cidadeOnlyBody anaBia).response.status = 200
      ∧ (putParticipant true "2" cidadeOnlyBody anaBia).persisted =
          [⟨.str "1", .str "Ana", .str "ana@x.com", .str "s1", .num 20, .str "Recife"⟩,
           ⟨.str "2", .str "Bia", .str "bia@x.com", .str "s2", .num 30, .str "Olinda"⟩]
      ∧ ∃ (i : Nat) (e r : Participant),
        anaBia[i]? = some e ∧ e.id = .str "2"
          ∧ (∀ j y, j < i → anaBia[j]? = some y → y.id ≠ .str "2")
          ∧ (putParticipant true "2" cidadeOnlyBody anaBia).response.body =
              .mensagemData "Participante atualizado com sucesso!" r
          ∧ (putParticipant true "2" cidadeOnlyBody anaBia).persisted.length = anaBia.length
          ∧ (putParticipant true "2" cidadeOnlyBody anaBia).persisted[i]? = some r
          ∧ ∀ j, j ≠ i →
            (putParticipant true "2" cidadeOnlyBody anaBia).persisted[j]? = anaBia[j]? :=
  ⟨by decide, by decide, update_replaces_in_place true "2" cidadeOnlyBody anaBia (by decide)⟩

theorem putParticipant_emailOnly (diskOk : Bool) (id s : String)
    (stored : List Participant) (i : Nat) (e : Participant) (hs : s ≠ "")
    (hi : findIndex (fun p => p.id.strictEq (.str id)) stored = some i)
    (he : stored[i]? = some e) :
    (putParticipant diskOk id (emailOnlyBody s) stored).response.status =
      if e.email ≠ .str s ∧ ∃ p ∈ stored, p.email = .str s then 409
      else if diskOk = true then 200 else 500 := by
  have ht : (BodyVal.val (.str s)).truthy = true := by
    simp [BodyVal.truthy, JVal.truthy, hs]
  have h1 : ¬ ((!(emailOnlyBody s).nome.truthy && !(emailOnlyBody s).email.truthy
      && !(emailOnlyBody s).senha.truthy && !(emailOnlyBody s).idade.truthy
      && !(emailOnlyBody s).cidade.truthy) = true) := by
    simp [emailOnlyBody, ht]
  have h2 : ¬ ((!(emailOnlyBody s).idade.strictEq .undefined
      && idadeInvalida (emailOnlyBody s).idade) = true) := by
    simp [emailOnlyBody, BodyVal.strictEq, JVal.strictEq]
  unfold putParticipant
  rw [if_neg h1, if_neg h2]
  dsimp only
  rw [hi]
  dsimp only
  rw [he]
  dsimp only
  by_cases hc : e.email ≠ .str s ∧ ∃ p ∈ stored, p.email = .str s
  · have h3 : ((emailOnlyBody s).email.truthy && !(emailOnlyBody s).email.strictEq e.email
        && stored.any (fun p => (emailOnlyBody s).email.strictEq p.email)) = true := by
      obtain ⟨hne, p, hp, hpe⟩ := hc
      have hne' : (BodyVal.val (.str s)).strictEq e.email = false := by
        cases hb : (BodyVal.val (.str s)).strictEq e.email
        · rfl
        · exact absurd ((body_str_strictEq_iff _ _).mp hb) hne
      simp only [emailOnlyBody, ht, hne', Bool.not_false, Bool.and_self, Bool.true_and,
        List.any_eq_true]
      exact ⟨p, hp, (body_str_strictEq_iff _ _).mpr hpe⟩
    rw [if_pos h3, if_pos hc]
  · have h3 : ¬ (((emailOnlyBody s).email.truthy && !(emailOnlyBody s).email.strictEq e.email
        && stored.any (fun p => (emailOnlyBody s).email.strictEq p.email)) = true) := by
      intro h3
      apply hc
      simp only [emailOnlyBody, ht, Bool.true_and, Bool.and_eq_true, Bool.not_eq_true',
        List.any_eq_true] at h3
      obtain ⟨hne, p, hp, hpe⟩ := h3
      refine ⟨?_, p, hp, (body_str_strictEq_iff _ _).mp hpe⟩
      intro heq
      rw [(body_str_strictEq_iff _ _).mpr heq] at hne
      exact absurd hne (by simp)
    rw [if_neg h3, if_neg hc]
    by_cases hd : diskOk = true
    · rw [if_pos hd, if_pos hd]
    · rw [if_neg hd, if_neg hd]

/-- C10, as stated, fails: in a collection where the records with ids `"1"` and
`"2"` carry the same email, `PUT /participants/1` with only that email in the
body is answered with 200, although the email is used by a different stored
participant. -/
theorem update_email_conflict_counterexample :
    sharedEmail.find? (fun p => p.id.strictEq (.str "1")) =
        some ⟨.str "1", .str "Ana", .str "ana@x.com", .str "s1", .num 20, .str "Recife"⟩
      ∧ (∃ p ∈ sharedEmail, p.id ≠ .str "1" ∧ p.email = .str "ana@x.com")
      ∧ (putParticipant true "1" (emailOnlyBody "ana@x.com") sharedEmail).response.status = 200
      ∧ (putParticipant true "1" (emailOnlyBody "ana@x.com") sharedEmail).response.status
          ≠ 409 := by
  decide

/-- C10, amended: for a collection whose first record with the path id is
`target`, and an update body whose only supplied field is a non-empty string
email: if the email differs from the target's current email and is the email of
a stored participant, the response is 409; if the email is the target's own
current email and the save succeeds, the response is 200. -/
theorem update_email_conflict (diskOk : Bool) (id s : String) (stored : List Participant)
    (target : Participant) (hs : s ≠ "")
    (ht : stored.find? (fun p => p.id.strictEq (.str id)) = some target) :
    (target.email ≠ .str s → (∃ p ∈ stored, p.email = .str s) →
        (putParticipant diskOk id (emailOnlyBody s) stored).response.status = 409)
      ∧ (target.email = .str s → diskOk = true →
        (putParticipant diskOk id (emailOnlyBody s) stored).response.status = 200) := by
  obtain ⟨i, hi, he⟩ := findIndex_of_find? id stored target ht
  have key := putParticipant_emailOnly diskOk id s stored i target hs hi he
  refine ⟨?_, ?_⟩
  · intro hne hex
    rw [key, if_pos ⟨hne, hex⟩]
  · intro heq hd
    rw [key, if_neg (fun hc => hc.1 heq), if_pos hd]

/-- Witness for C10: with Ana and Bia stored, Bia asks for Ana's email (409)
and Ana asks for her own (200). -/
theorem update_email_conflict_witness :
    ("ana@x.com" ≠ "")
      ∧ anaBia.find? (fun p => p.id.strictEq (.str "1")) =
          some ⟨.str "1", .str "Ana", .str "ana@x.com", .str "s1", .num 20, .str "Recife"⟩
      ∧ (putParticipant true "2" (emailOnlyBody "ana@x.com") anaBia).response.status = 409
      ∧ (putParticipant true "1" (emailOnlyBody "ana@x.com") anaBia).response.status = 200 :=
  ⟨by decide, by decide,
    (update_email_conflict true "2" "ana@x.com" anaBia
      ⟨.str "2", .str "Bia", .str "bia@x.com", .str "s2", .num 30, .str "Natal"⟩
      (by decide) (by decide)).1 (by decide) (by decide),
    (update_email_conflict true "1" "ana@x.com" anaBia
      ⟨.str "1", .str "Ana", .str "ana@x.com", .str "s1", .num 20, .str "Recife"⟩
      (by decide) (by decide)).2 rfl rfl⟩

theorem getElem?_lt_length {α : Type} (l : List α) (i : Nat) (e : α) (he : l[i]? = some e) :
    i < l.length := by
  rcases Nat.lt_or_ge i l.length with hl | hl
  · exact hl
  · rw [List.getElem?_eq_none hl] at he
    exact absurd he (by simp)

theorem findIndex_id_none_iff (id : String) (stored : List Participant) :
    findIndex (fun p => p.id.strictEq (.str id)) stored = none ↔
      ∀ p ∈ stored, p.id ≠ .str id := by
  rw [findIndex_eq_none]
  constructor
  · intro h p hp hid
    have := h p hp
    rw [(strictEq_str_iff _ _).mpr hid] at this
    exact absurd this (by simp)
  · intro h p hp
    cases hb : p.id.strictEq (.str id)
    · rfl
    · exact absurd ((strictEq_str_iff _ _).mp hb) (h p hp)

theorem findIndex_id_some (id : String) (stored : List Participant) (i : Nat)
    (hi : findIndex (fun p => p.id.strictEq (.str id)) stored = some i) :
    ∃ e, stored[i]? = some e ∧ e.id = .str id ∧
      ∀ j y, j < i → stored[j]? = some y → y.id ≠ .str id := by
  obtain ⟨x, hx, hfx, hfirst⟩ := findIndex_eq_some _ stored i hi
  refine ⟨x, hx, (strictEq_str_iff _ _).mp hfx, ?_⟩
  intro j y hj hy hid
  have := hfirst j y hj hy
  rw [(strictEq_str_iff _ _).mpr hid] at this
  exact absurd this (by simp)

theorem deleteParticipant_status (diskOk : Bool) (id : String) (stored : List Participant) :
    ((∀ p ∈ stored, p.id ≠ .str id) ∧
        deleteParticipant diskOk id stored =
          ⟨⟨404, .mensagem "Participante não encontrado."⟩, stored⟩)
      ∨ ∃ i e, stored[i]? = some e ∧ e.id = .str id
          ∧ (∀ j y, j < i → stored[j]? = some y → y.id ≠ .str id)
          ∧ deleteParticipant diskOk id stored =
              if diskOk = true then
                ⟨⟨200, .mensagemData "Participante removido com sucesso!" e⟩, stored.eraseIdx i⟩
              else ⟨⟨500, .mensagem "Erro ao remover o participante."⟩, stored⟩ := by
  unfold deleteParticipant
  dsimp only
  cases hi : findIndex (fun p => p.id.strictEq (.str id)) stored with
  | none =>
    left
    exact ⟨(findIndex_id_none_iff id stored).mp hi, rfl⟩
  | some i =>
    right
    obtain ⟨e, he, hid, hfirst⟩ := findIndex_id_some id stored i hi
    refine ⟨i, e, he, hid, hfirst, ?_⟩
    dsimp only
    rw [he]

/-- C11: the delete handler answers 404 exactly when no stored record has the
path id.  Otherwise, when the save succeeds, it answers 200; the persisted
collection is the previous one without the first record carrying that id, the
records before and after it in their original order; its length is smaller by
exactly one; and the response data is the removed record. -/
theorem delete_removes_first_match (diskOk : Bool) (id : String)
    (stored : List Participant) :
    ((deleteParticipant diskOk id stored).response.status = 404 ↔
        ∀ p ∈ stored, p.id ≠ .str id)
      ∧ ((∃ p ∈ stored, p.id = .str id) → diskOk = true →
        ∃ (i : Nat) (e : Participant),
          stored[i]? = some e ∧ e.id = .str id
            ∧ (∀ j y, j < i → stored[j]? = some y → y.id ≠ .str id)
            ∧ (deleteParticipant diskOk id stored).response =
                ⟨200, .mensagemData "Participante removido com sucesso!" e⟩
            ∧ (deleteParticipant diskOk id stored).persisted =
                stored.take i ++ stored.drop (i + 1)
            ∧ stored = stored.take i ++ e :: stored.drop (i + 1)
            ∧ (deleteParticipant diskOk id stored).persisted.length + 1 = stored.length) := by
  rcases deleteParticipant_status diskOk id stored with
    ⟨hnone, hd⟩ | ⟨i, e, he, hid, hfirst, hd⟩
  · rw [hd]
    refine ⟨by simpa using hnone, ?_⟩
    rintro ⟨p, hp, hpid⟩
    exact absurd hpid (hnone p hp)
  · have hmem : e ∈ stored := List.getElem?_mem he
    have hlt : i < stored.length := getElem?_lt_length stored i e he
    refine ⟨?_, ?_⟩
    · rw [hd]
      constructor
      · intro h
        cases diskOk <;> simp at h
      · intro h
        exact absurd hid (h e hmem)
    · intro _ hok
      rw [hd, if_pos hok]
      have hget : stored[i] = e := by
        rw [List.getElem?_eq_getElem hlt] at he
        exact Option.some.inj he
      refine ⟨i, e, he, hid, hfirst, rfl, ?_, ?_, ?_⟩
      · exact List.eraseIdx_eq_take_drop_succ stored i
      · rw [← hget]
        simp
      · show (stored.eraseIdx i).length + 1 = stored.length
        rw [List.length_eraseIdx, if_pos hlt]
        omega

/-- Witness for C11: with Ana and Bia stored, `DELETE /participants/1`. -/
theorem delete_removes_first_match_witness :
    (∃ p ∈ anaBia, p.id = .str "1")
      ∧ (deleteParticipant true "1" anaBia).persisted =
          [⟨.str "2", .str "Bia", .str "bia@x.com", .str "s2", .num 30, .str "Natal"⟩]
      ∧ ∃ (i : Nat) (e : Participant),
          anaBia[i]? = some e ∧ e.id = .str "1"
            ∧ (∀ j y, j < i → anaBia[j]? = some y → y.id ≠ .str "1")
            ∧ (deleteParticipant true "1" anaBia).response =
                ⟨200, .mensagemData "Participante removido com sucesso!" e⟩
            ∧ (deleteParticipant true "1" anaBia).persisted =
                anaBia.take i ++ anaBia.drop (i + 1)
            ∧ anaBia = anaBia.take i ++ e :: anaBia.drop (i + 1)
            ∧ (deleteParticipant true "1" anaBia).persisted.length + 1 = anaBia.length :=
  ⟨by decide, by decide,
    (delete_removes_first_match true "1" anaBia).2 (by decide) rfl⟩

theorem getParticipantById_of_none (id : String) (stored : List Participant)
    (h : ∀ p ∈ stored, p.id ≠ .str id) :
    getParticipantById id stored = ⟨404, .mensagem "Participante não encontrado."⟩ := by
  unfold getParticipantById
  rw [find?_of_findIndex, (findIndex_id_none_iff id stored).mpr h]
  rfl

theorem getParticipantById_cases (id : String) (stored : List Participant) :
    ((∀ p ∈ stored, p.id ≠ .str id) ∧
        getParticipantById id stored = ⟨404, .mensagem "Participante não encontrado."⟩)
      ∨ ∃ (i : Nat) (e : Participant), stored[i]? = some e ∧ e.id = .str id
          ∧ (∀ (j : Nat) (y : Participant), j < i → stored[j]? = some y → y.id ≠ .str id)
          ∧ getParticipantById id stored = ⟨200, .participante e⟩ := by
  cases hi : findIndex (fun p => p.id.strictEq (.str id)) stored with
  | none =>
    left
    have hn := (findIndex_id_none_iff id stored).mp hi
    exact ⟨hn, getParticipantById_of_none id stored hn⟩
  | some i =>
    right
    obtain ⟨e, he, hid, hfirst⟩ := findIndex_id_some id stored i hi
    refine ⟨i, e, he, hid, hfirst, ?_⟩
    unfold getParticipantById
    rw [find?_id_spec id stored i e hi he]

theorem eraseIdx_no_id (stored : List Participant) (i : Nat) (e : Participant)
    (hd : idsDistinct stored) (he : stored[i]? = some e) :
    ∀ p ∈ stored.eraseIdx i, p.id ≠ e.id := by
  have hlt : i < stored.length := getElem?_lt_length stored i e he
  have hget : stored[i] = e := by
    rw [List.getElem?_eq_getElem hlt] at he
    exact Option.some.inj he
  have hsplit : stored = stored.take i ++ e :: stored.drop (i + 1) := by
    rw [← hget]
    simp
  have herase : stored.eraseIdx i = stored.take i ++ stored.drop (i + 1) :=
    List.eraseIdx_eq_take_drop_succ stored i
  rw [herase]
  generalize stored.take i = l1 at hsplit ⊢
  generalize stored.drop (i + 1) = l2 at hsplit ⊢
  subst hsplit
  unfold idsDistinct at hd
  rw [List.map_append, List.map_cons, List.nodup_append] at hd
  obtain ⟨-, h2, h3⟩ := hd
  rw [List.nodup_cons] at h2
  intro p hp hpe
  rcases List.mem_append.mp hp with hm | hm
  · exact h3 (List.mem_map_of_mem Participant.id hm)
      (by rw [hpe]; exact List.mem_cons_self _ _)
  · exact h2.1 (by rw [← hpe]; exact List.mem_map_of_mem Participant.id hm)

/-- C12, as stated, fails: after two registrations at the same clock value both
records carry the id `"1"`; `DELETE /participants/1` is answered with 200 and
removes the first, and a fetch of id `"1"` on the persisted collection is
answered with 200 and the second record. -/
theorem fetch_after_delete_counterexample :
    sameClock =
        [⟨.str "1", .str "Ana", .str "ana@x.com", .str "s1", .num 20, .str "Recife"⟩,
         ⟨.str "1", .str "Bia", .str "bia@x.com", .str "s2", .num 30, .str "Natal"⟩]
      ∧ (deleteParticipant true "1" sameClock).response.status = 200
      ∧ getParticipantById "1" (deleteParticipant true "1" sameClock).persisted =
          ⟨200, .participante
            ⟨.str "1", .str "Bia", .str "bia@x.com", .str "s2", .num 30, .str "Natal"⟩⟩ := by
  decide

/-- C12, amended: for a stored collection whose ids are pairwise distinct and
an id whose delete request is answered with 200, a fetch of that id on the
persisted collection is answered with 404. -/
theorem fetch_after_delete_not_found (diskOk : Bool) (id : String)
    (stored : List Participant) (hd : idsDistinct stored)
    (h : (deleteParticipant diskOk id stored).response.status = 200) :
    getParticipantById id (deleteParticipant diskOk id stored).persisted =
      ⟨404, .mensagem "Participante não encontrado."⟩ := by
  rcases deleteParticipant_status diskOk id stored with
    ⟨-, hp⟩ | ⟨i, e, he, hid, -, hp⟩
  · rw [hp] at h
    simp at h
  · cases diskOk with
    | false =>
      rw [hp] at h
      simp at h
    | true =>
      rw [hp, if_pos rfl]
      apply getParticipantById_of_none
      intro p hmem
      rw [← hid]
      exact eraseIdx_no_id stored i e hd he p hmem

/-- Witness for C12: with Ana and Bia stored under distinct ids, delete id
`"1"` and fetch it again. -/
theorem fetch_after_delete_not_found_witness :
    idsDistinct anaBia
      ∧ (deleteParticipant true "1" anaBia).response.status = 200
      ∧ getParticipantById "1" (deleteParticipant true "1" anaBia).persisted =
          ⟨404, .mensagem "Participante não encontrado."⟩ :=
  ⟨by decide, by decide,
    fetch_after_delete_not_found true "1" anaBia (by decide) (by decide)⟩

/-- C17: the fetch-by-id handler answers 404 exactly when no stored record has
the path id, and otherwise answers 200 with the first record, in collection
order, whose id is exactly the path id. -/
theorem fetch_by_id_first_match (id : String) (stored : List Participant) :
    ((getParticipantById id stored).status = 404 ↔ ∀ p ∈ stored, p.id ≠ .str id)
      ∧ (((∀ p ∈ stored, p.id ≠ .str id) ∧
          getParticipantById id stored = ⟨404, .mensagem "Participante não encontrado."⟩)
        ∨ ∃ (i : Nat) (e : Participant), stored[i]? = some e ∧ e.id = .str id
            ∧ (∀ (j : Nat) (y : Participant), j < i → stored[j]? = some y → y.id ≠ .str id)
            ∧ getParticipantById id stored = ⟨200, .participante e⟩) := by
  refine ⟨?_, getParticipantById_cases id stored⟩
  rcases getParticipantById_cases id stored with ⟨hn, hr⟩ | ⟨i, e, he, hid, -, hr⟩
  · rw [hr]
    simpa using hn
  · rw [hr]
    constructor
    · intro h
      simp at h
    · intro h
      exact absurd hid (h e (List.getElem?_mem he))

/-- C20, as stated, fails: with a record of id `"1"` stored, a registration at
clock 1 is answered with 201 and returns a record whose id is `"1"` too; the
fetch of that id on the persisted collection is answered with 200 and the older
record, not the one just registered. -/
theorem fetch_after_register_counterexample :
    (postParticipants 1 true biaBody (postParticipants 1 true anaBody []).persisted).response
        = ⟨201, .mensagemData "Participante cadastrado com sucesso!"
            ⟨.str "1", .str "Bia", .str "bia@x.com", .str "s2", .num 30, .str "Natal"⟩⟩
      ∧ getParticipantById "1"
          (postParticipants 1 true biaBody
            (postParticipants 1 true anaBody []).persisted).persisted
        = ⟨200, .participante
            ⟨.str "1", .str "Ana", .str "ana@x.com", .str "s1", .num 20, .str "Recife"⟩⟩ := by
  decide

/-- C20, amended: for every stored collection and every registration answered
with 201 at a clock value whose decimal string is not the id of a stored
record, a fetch by the id of the returned record on the persisted collection is
answered with 200 and exactly that record; the router gives a GET request for
`/participants/<id>` to the fetch-by-id handler. -/
theorem fetch_after_register (now : Nat) (diskOk : Bool) (body : Body)
    (stored : List Participant)
    (h : (postParticipants now diskOk body stored).response.status = 201)
    (hfresh : ∀ p ∈ stored, p.id ≠ .str (dateNowToString now)) :
    ∃ (r : Participant) (s : String),
      (postParticipants now diskOk body stored).response.body =
          .mensagemData "Participante cadastrado com sucesso!" r
        ∧ r.id = .str s
        ∧ dispatch .GET ["participants", s] = some (.getParticipantById, [s])
        ∧ getParticipantById s (postParticipants now diskOk body stored).persisted =
            ⟨200, .participante r⟩ := by
  rcases postParticipants_cases now diskOk body stored with ⟨-, hne⟩ | ⟨hp, -⟩
  · exact absurd h hne
  · rw [hp]
    refine ⟨novoParticipante now body, dateNowToString now, rfl, rfl, ?_, ?_⟩
    · simp [dispatch, dispatchIn, routes, matchPath]
    · unfold getParticipantById
      have hnone : stored.find? (fun p => p.id.strictEq (.str (dateNowToString now))) = none := by
        rw [List.find?_eq_none]
        intro p hp hb
        exact hfresh p hp ((strictEq_str_iff _ _).mp hb)
      have hself : (novoParticipante now body).id.strictEq (.str (dateNowToString now))
          = true := (strictEq_str_iff _ _).mpr rfl
      rw [List.find?_append, hnone]
      simp [hself]

/-- Witness for C20: registering Bia at clock 2 after Ana at clock 1. -/
theorem fetch_after_register_witness :
    (postParticipants 2 true biaBody (postParticipants 1 true anaBody []).persisted).response.status
        = 201
      ∧ getParticipantById "2" anaBia =
          ⟨200, .participante
            ⟨.str "2", .str "Bia", .str "bia@x.com", .str "s2", .num 30, .str "Natal"⟩⟩
      ∧ ∃ (r : Participant) (s : String),
        (postParticipants 2 true biaBody
            (postParticipants 1 true anaBody []).persisted).response.body =
            .mensagemData "Participante cadastrado com sucesso!" r
          ∧ r.id = .str s
          ∧ dispatch .GET ["participants", s] = some (.getParticipantById, [s])
          ∧ getParticipantById s
              (postParticipants 2 true biaBody
                (postParticipants 1 true anaBody []).persisted).persisted =
              ⟨200, .participante r⟩ :=
  ⟨by decide, by decide,
    fetch_after_register 2 true biaBody (postParticipants 1 true anaBody []).persisted
      (by decide) (by decide)⟩

/-- C15, as stated, fails: when the file holds the JSON text `null`, or a JSON
object, `readParticipants` returns that value, which is neither a sequence nor
the empty sequence. -/
theorem readParticipants_counterexample :
    readParticipants (.json (.other .null)) = .other .null
      ∧ readParticipants (.json (.other .null)) ≠ .array []
      ∧ readParticipants (.json (.other (.obj "\x7b\x7d"))) = .other (.obj "\x7b\x7d")
      ∧ readParticipants (.json (.other (.num 5))) = .other (.num 5) := by
  decide

/-- C15, amended: `readParticipants` never fails.  It returns the empty
sequence when the file is absent, unreadable or not valid JSON; when the file
holds valid JSON it returns the parsed value as it is, a sequence exactly when
that value is an array.  When the file is absent every GET handler answers as
on the empty collection. -/
theorem readParticipants_total (js : Coercions) (id : String) (file : FileState) :
    ((∃ ps, readParticipants file = .array ps)
        ∨ ∃ v, file = .json (.other v) ∧ readParticipants file = .other v)
      ∧ readParticipants .absent = .array []
      ∧ readParticipants .unreadable = .array []
      ∧ (∀ text, readParticipants (.invalidJson text) = .array [])
      ∧ (∀ value, readParticipants (.json value) = value)
      ∧ onFile getParticipants .absent = some (getParticipants [])
      ∧ onFile (getParticipantById id) .absent = some (getParticipantById id [])
      ∧ onFile getParticipantsCount .absent = some (getParticipantsCount [])
      ∧ onFile (getParticipantsCountOver18 js) .absent =
          some (getParticipantsCountOver18 js [])
      ∧ onFile (getParticipantsCityMost js) .absent =
          some (getParticipantsCityMost js []) := by
  refine ⟨?_, rfl, rfl, fun _ => rfl, fun _ => rfl, rfl, rfl, rfl, rfl, rfl⟩
  cases file with
  | absent => exact Or.inl ⟨[], rfl⟩
  | unreadable => exact Or.inl ⟨[], rfl⟩
  | invalidJson t => exact Or.inl ⟨[], rfl⟩
  | json value =>
    cases value with
    | array ps => exact Or.inl ⟨ps, rfl⟩
    | other v => exact Or.inr ⟨v, rfl, rfl⟩

theorem overlay_typeOf (b : BodyVal) (x : JVal) (t : JType)
    (hb : b = .val .undefined ∨ b.written.typeOf = t) (hx : x.typeOf = t) :
    (if (!b.strictEq .undefined) = true then b.written else x).typeOf = t := by
  by_cases hu : b = .val .undefined
  · rw [overlay_keep b x hu]
    exact hx
  · rw [overlay_take b x hu]
    rcases hb with h | h
    · exact absurd h hu
    · exact h

/-- Where stored records do stay well-formed: delete keeps every record
well-formed for every request; so does a registration whose idade is not
`Infinity`, and an update in which each of nome, email, senha, cidade is either
not supplied or a string and idade is not `Infinity`. -/
theorem wellFormed_kept (now : Nat) (diskOk : Bool) (id : String) (body : Body)
    (stored : List Participant) (h : ∀ p ∈ stored, wellFormed p)
    (hfin : body.idade ≠ .infinity false) :
    (∀ p ∈ (postParticipants now diskOk body stored).persisted, wellFormed p)
      ∧ (∀ p ∈ (deleteParticipant diskOk id stored).persisted, wellFormed p)
      ∧ ((body.nome = .val .undefined ∨ body.nome.isStr) →
          (body.email = .val .undefined ∨ body.email.isStr) →
          (body.senha = .val .undefined ∨ body.senha.isStr) →
          (body.cidade = .val .undefined ∨ body.cidade.isStr) →
          ∀ p ∈ (putParticipant diskOk id body stored).persisted, wellFormed p) := by
  have hw : ∀ b : BodyVal, b.isStr → b.written.typeOf = .string := by
    rintro b ⟨s, rfl⟩
    rfl
  refine ⟨?_, ?_, ?_⟩
  · rcases postParticipants_cases now diskOk body stored with ⟨hp, -⟩ | ⟨hp, -, -, hq, -⟩
    · rw [hp]; exact h
    · have hvalid : ¬ registrationInvalid body := by
        rcases postParticipants_status now diskOk body stored with
          ⟨-, hs⟩ | ⟨-, -, hs⟩ | ⟨a, -⟩ | ⟨-, -, -, hs⟩
        · rw [hp] at hs; simp at hs
        · rw [hp] at hs; simp at hs
        · exact a
        · rw [hp] at hs; simp at hs
      have hstr : body.nome.isStr ∧ body.email.isStr ∧ body.senha.isStr ∧ body.cidade.isStr := by
        unfold registrationInvalid at hvalid
        simp only [not_or, not_not] at hvalid
        exact ⟨hvalid.2.1.1, hvalid.2.1.2.1, hvalid.2.1.2.2.1, hvalid.2.1.2.2.2⟩
      rw [hp]
      intro p hmem
      rcases List.mem_append.mp hmem with hm | hm
      · exact h p hm
      · rw [List.mem_singleton] at hm
        subst hm
        have hnum : body.idade.written.typeOf = .number := by
          rcases hq with ⟨q, hq1, -⟩ | hinf
          · rw [hq1]; rfl
          · exact absurd hinf hfin
        exact ⟨rfl, hw _ hstr.1, hw _ hstr.2.1, hw _ hstr.2.2.1, hw _ hstr.2.2.2, hnum⟩
  · intro p hmem
    exact h p ((deleteParticipant_sublist diskOk id stored).subset hmem)
  · intro hn he hs hc
    rcases putParticipant_cases diskOk id body stored with
      ⟨hp, -⟩ | ⟨i, e, -, hget, -, hq, -, hp⟩
    · rw [hp]; exact h
    · rw [hp]
      intro p hmem
      rcases List.mem_or_eq_of_mem_set hmem with hm | hm
      · exact h p hm
      · subst hm
        obtain ⟨w1, w2, w3, w4, w5, w6⟩ := h e (List.getElem?_mem hget)
        have hi : body.idade = .val .undefined ∨ body.idade.written.typeOf = .number := by
          rcases hq with hu | ⟨q, hq1, -⟩ | hinf
          · exact Or.inl hu
          · right; rw [hq1]; rfl
          · exact absurd hinf hfin
        exact ⟨w1, overlay_typeOf _ _ _ (hn.imp (fun x => x) (hw _)) w2,
          overlay_typeOf _ _ _ (he.imp (fun x => x) (hw _)) w3,
          overlay_typeOf _ _ _ (hs.imp (fun x => x) (hw _)) w4,
          overlay_typeOf _ _ _ (hc.imp (fun x => x) (hw _)) w5, overlay_typeOf _ _ _ hi w6⟩

/-- C16: the update handler does not keep stored records well-formed.  With the
well-formed records of Ana and Bia stored, `PUT /participants/1` with the body
`{nome: 123}` is answered with 200 and persists a record whose `nome` is the
number 123.  The handler tests the type of `idade` only, while the registration
handler tests that the four text fields are strings. -/
theorem update_stores_non_string :
    (∀ p ∈ anaBia, wellFormed p)
      ∧ (putParticipant true "1" numericNomeBody anaBia).response.status = 200
      ∧ (putParticipant true "1" numericNomeBody anaBia).persisted =
        [⟨.str "1", .num 123, .str "ana@x.com", .str "s1", .num 20, .str "Recife"⟩,
         ⟨.str "2", .str "Bia", .str "bia@x.com", .str "s2", .num 30, .str "Natal"⟩]
      ∧ ¬ (∀ p ∈ (putParticipant true "1" numericNomeBody anaBia).persisted, wellFormed p)
      ∧ (postParticipants 3 true
          ⟨.val (.num 123), .val (.str "c@x.com"), .val (.str "s3"), .val (.num 40),
            .val (.str "Olinda")⟩ anaBia).response.status = 400 := by
  decide

theorem putParticipant_status_400 (diskOk : Bool) (id : String) (body : Body)
    (stored : List Participant) :
    (putParticipant diskOk id body stored).response.status = 400 ↔
      ((!body.nome.truthy && !body.email.truthy && !body.senha.truthy
          && !body.idade.truthy && !body.cidade.truthy) = true
        ∨ (!body.idade.strictEq .undefined && idadeInvalida body.idade) = true) := by
  unfold putParticipant
  by_cases h1 : (!body.nome.truthy && !body.email.truthy && !body.senha.truthy
      && !body.idade.truthy && !body.cidade.truthy) = true
  · rw [if_pos h1]
    simp only [true_iff]
    exact Or.inl h1
  rw [if_neg h1]
  by_cases h2 : (!body.idade.strictEq .undefined && idadeInvalida body.idade) = true
  · rw [if_pos h2]
    simp only [true_iff]
    exact Or.inr h2
  rw [if_neg h2]
  have hno : ¬ ((!body.nome.truthy && !body.email.truthy && !body.senha.truthy
          && !body.idade.truthy && !body.cidade.truthy) = true
        ∨ (!body.idade.strictEq .undefined && idadeInvalida body.idade) = true) := by
    rintro (h | h)
    · exact h1 h
    · exact h2 h
  simp only [hno, iff_false]
  cases findIndex (fun p => p.id.strictEq (.str id)) stored with
  | none => simp
  | some i =>
    dsimp only
    cases stored[i]? with
    | none => simp
    | some e =>
      dsimp only
      by_cases h3 : (body.email.truthy && !body.email.strictEq e.email
            && stored.any (fun p => body.email.strictEq p.email)) = true
      · rw [if_pos h3]; simp
      rw [if_neg h3]
      cases diskOk <;> simp

theorem updateInvalid_iff (body : Body) :
    ((!body.nome.truthy && !body.email.truthy && !body.senha.truthy
          && !body.idade.truthy && !body.cidade.truthy) = true
        ∨ (!body.idade.strictEq .undefined && idadeInvalida body.idade) = true)
      ↔ updateInvalid body := by
  unfold updateInvalid
  have hu : (!body.idade.strictEq .undefined) = true ↔ body.idade ≠ .val .undefined := by
    rw [Bool.not_eq_true', ← Bool.not_eq_true, body_strictEq_undefined_iff]
  simp only [Bool.and_eq_true, Bool.not_eq_true', not_truthy_iff_falsy, and_assoc]
  rw [← Bool.not_eq_true', hu, idadeInvalida_iff]

/-- C19, as stated, fails: the body `{nome: ""}` supplies one of the five
fields and no idade, yet the update is answered with 400. -/
theorem update_status_400_counterexample :
    emptyNomeBody.nome ≠ .val .undefined
      ∧ emptyNomeBody.idade = .val .undefined
      ∧ (putParticipant true "1" emptyNomeBody anaBia).response =
          ⟨400, .mensagem "Tem que digitar em algum espaço"⟩ := by
  decide

/-- C19, amended: the update handler answers 400 exactly when every one of
nome, email, senha, idade, cidade is missing or falsy, or the body supplies an
idade that is not a number of at least 16; in particular, for every body in
which at least one of the five fields is truthy and idade is either not
supplied or a number of at least 16, the response is not 400. -/
theorem update_status_400 (diskOk : Bool) (id : String) (body : Body)
    (stored : List Participant) :
    ((putParticipant diskOk id body stored).response.status = 400 ↔ updateInvalid body)
      ∧ ((¬ body.nome.falsy ∨ ¬ body.email.falsy ∨ ¬ body.senha.falsy ∨ ¬ body.idade.falsy
            ∨ ¬ body.cidade.falsy) →
          (body.idade = .val .undefined ∨ body.idade.isNumAtLeast 16) →
          (putParticipant diskOk id body stored).response.status ≠ 400) := by
  have key : (putParticipant diskOk id body stored).response.status = 400 ↔
      updateInvalid body :=
    (putParticipant_status_400 diskOk id body stored).trans (updateInvalid_iff body)
  refine ⟨key, ?_⟩
  intro hsome hidade h400
  rcases key.mp h400 with ⟨a, b, c, d, e⟩ | ⟨hne, hbad⟩
  · rcases hsome with h | h | h | h | h
    · exact h a
    · exact h b
    · exact h c
    · exact h d
    · exact h e
  · rcases hidade with h | h
    · exact hne h
    · exact hbad h

/-- Witness for C19: with Ana and Bia stored, an update that supplies only a
city is not answered with 400. -/
theorem update_status_400_witness :
    (putParticipant true "2" cidadeOnlyBody anaBia).response.status = 200
      ∧ (putParticipant true "2" cidadeOnlyBody anaBia).response.status ≠ 400 :=
  ⟨by decide,
    (update_status_400 true "2" cidadeOnlyBody anaBia).2
      (Or.inr (Or.inr (Or.inr (Or.inr (by simp [cidadeOnlyBody, BodyVal.falsy])))))
      (Or.inl rfl)⟩

theorem ge_num_iff (js : Coercions) (p : Participant) (q : ℚ) (h : p.idade = .num q) :
    p.idade.ge js 18 = true ↔ 18 ≤ q := by
  simp [h, JVal.ge]

theorem ge_iff_maiorDe18 (js : Coercions) (p : Participant) (h : p.idade.typeOf = .number) :
    p.idade.ge js 18 = true ↔ maiorDe18 p := by
  unfold maiorDe18
  cases hv : p.idade <;> simp [hv, JVal.typeOf] at h
  simp [JVal.ge]

/-- C18: the router gives `GET /participants/count/over18` to the over-18
handler, which answers 200 with `maioresDe18` equal to the number
of stored participants whose idade compares `>= 18`, and that number never
exceeds the length of the collection.  A participant whose idade is a number
`q` is counted exactly when `18 ≤ q`, so ages 16 and 17 are not counted; a
missing, null or boolean idade is never counted.  When every stored idade is a
number, the participants counted are exactly those whose idade is a number of
at least 18. -/
theorem over18_count (js : Coercions) (stored : List Participant) :
    dispatch .GET ["participants", "count", "over18"] =
          some (.getParticipantsCountOver18, [])
        ∧ getParticipantsCountOver18 js stored =
          ⟨200, .maioresDe18 (stored.filter (fun p => p.idade.ge js 18)).length⟩
        ∧ (stored.filter (fun p => p.idade.ge js 18)).length ≤ stored.length
        ∧ (∀ (p : Participant) (q : ℚ), p.idade = .num q →
            (p.idade.ge js 18 = true ↔ 18 ≤ q))
        ∧ (∀ p : Participant, p.idade = .num 16 ∨ p.idade = .num 17 ∨ p.idade = .undefined
            ∨ p.idade = .null ∨ (∃ b, p.idade = .bool b) → p.idade.ge js 18 = false)
        ∧ ((∀ p ∈ stored, p.idade.typeOf = .number) →
            ∀ p : Participant, p ∈ stored.filter (fun p => p.idade.ge js 18) ↔
              p ∈ stored ∧ maiorDe18 p) := by
  refine ⟨by decide, rfl, List.length_filter_le _ _, ?_, ?_, ?_⟩
  · intro p q h
    exact ge_num_iff js p q h
  · rintro p (h | h | h | h | ⟨b, h⟩)
    · rw [h]; simp [JVal.ge]; norm_num
    · rw [h]; simp [JVal.ge]; norm_num
    · rw [h]; rfl
    · rw [h]; simp [JVal.ge]
    · rw [h]; cases b <;> simp [JVal.ge]
  · intro hnum p
    rw [List.mem_filter]
    constructor
    · rintro ⟨hp, hge⟩
      exact ⟨hp, (ge_iff_maiorDe18 js p (hnum p hp)).mp hge⟩
    · rintro ⟨hp, hm⟩
      exact ⟨hp, (ge_iff_maiorDe18 js p (hnum p hp)).mpr hm⟩

/-- Witness for C18: with the ages 18, 20 and 16 stored the handler answers 2,
and the participants counted are those aged at least 18. -/
theorem over18_count_witness :
    getParticipantsCountOver18 unusedCoercions idades182016 = ⟨200, .maioresDe18 2⟩
      ∧ ∀ p : Participant,
          p ∈ idades182016.filter (fun p => p.idade.ge unusedCoercions 18) ↔
            p ∈ idades182016 ∧ maiorDe18 p :=
  ⟨by decide,
    (over18_count unusedCoercions idades182016).2.2.2.2.2 (by decide)⟩

theorem getOwn_of_mem (acc : Props) (k : String) (v : Slot)
    (hn : (acc.map Prod.fst).Nodup) (hm : (k, v) ∈ acc) : getOwn acc k = some v := by
  unfold getOwn
  induction acc with
  | nil => simp at hm
  | cons a t ih =>
    rw [List.map_cons, List.nodup_cons] at hn
    rcases List.mem_cons.mp hm with h | h
    · subst h
      simp
    · have hne : a.1 ≠ k := by
        intro heq
        apply hn.1
        rw [heq]
        exact List.mem_map_of_mem Prod.fst h
      simp [List.find?_cons, hne]
      simpa using ih hn.2 h

theorem getOwn_of_not_mem (acc : Props) (k : String) (h : ∀ e ∈ acc, e.1 ≠ k) :
    getOwn acc k = none := by
  unfold getOwn
  rw [Option.map_eq_none', List.find?_eq_none]
  intro e he
  simpa using h e he

theorem setOwn_of_mem (acc : Props) (k : String) (v w : Slot) (hm : (k, w) ∈ acc) :
    setOwn acc k v = acc.map (fun e => if e.1 = k then (k, v) else e) := by
  unfold setOwn
  rw [if_pos]
  rw [List.any_eq_true]
  exact ⟨(k, w), hm, by simp⟩

theorem setOwn_of_not_mem (acc : Props) (k : String) (v : Slot) (h : ∀ e ∈ acc, e.1 ≠ k) :
    setOwn acc k v = acc ++ [(k, v)] := by
  unfold setOwn
  rw [if_neg]
  rw [List.any_eq_true]
  rintro ⟨e, he, hk⟩
  exact h e he (by simpa using hk)

theorem contar_of_mem (acc : Props) (k : String) (c : Nat)
    (hn : (acc.map Prod.fst).Nodup) (hm : (k, Slot.count c) ∈ acc) :
    contar acc k = acc.map (fun e => if e.1 = k then (k, Slot.count (c + 1)) else e) := by
  unfold contar
  rw [getOwn_of_mem acc k _ hn hm]
  exact setOwn_of_mem acc k _ _ hm

theorem contar_of_not_mem (acc : Props) (k : String) (h : ∀ e ∈ acc, e.1 ≠ k)
    (hk : k ∉ objectPrototypeKeys) :
    contar acc k = acc ++ [(k, Slot.count 1)] := by
  unfold contar
  rw [getOwn_of_not_mem acc k h]
  have hp : k ≠ "__proto__" := by
    intro heq
    apply hk
    rw [heq]
    decide
  simp only [hp, hk, if_false]
  exact setOwn_of_not_mem acc k _ h

theorem tally_invariant (ks : List String) (hk : ∀ k ∈ ks, k ∉ objectPrototypeKeys) :
    ((ks.foldl contar []).map Prod.fst).Nodup
      ∧ (∀ e ∈ ks.foldl contar [], e.1 ∈ ks ∧ e.2 = Slot.count (ks.count e.1))
      ∧ (∀ k ∈ ks, (k, Slot.count (ks.count k)) ∈ ks.foldl contar [])
      ∧ ((ks.foldl contar []).map Prod.fst).Pairwise
          (fun a b => ks.indexOf a < ks.indexOf b) := by
  induction ks using List.reverseRecOn with
  | nil => simp
  | append_singleton ks k ih =>
    have hk' : ∀ x ∈ ks, x ∉ objectPrototypeKeys := fun x hx => hk x (by simp [hx])
    obtain ⟨hnd, hent, hmem, hord⟩ := ih hk'
    rw [List.foldl_append, List.foldl_cons, List.foldl_nil]
    generalize ks.foldl contar [] = acc at hnd hent hmem hord ⊢
    by_cases hin : k ∈ ks
    · have hkm := hmem k hin
      rw [contar_of_mem acc k _ hnd hkm]
      have hfst : (acc.map (fun e => if e.1 = k then (k, Slot.count (ks.count k + 1)) else e)).map
          Prod.fst = acc.map Prod.fst := by
        rw [List.map_map]
        apply List.map_congr_left
        intro e _
        by_cases he : e.1 = k <;> simp [he]
      refine ⟨by rw [hfst]; exact hnd, ?_, ?_, ?_⟩
      · intro e' he'
        obtain ⟨e, he, rfl⟩ := List.mem_map.mp he'
        obtain ⟨h1, h2⟩ := hent e he
        by_cases hek : e.1 = k
        · simp [hek, hin]
        · simp only [hek, if_false]
          refine ⟨by simp [h1], ?_⟩
          rw [h2, List.count_append]
          simp [List.count_singleton, hek]
      · intro k' hk'mem
        have hk'ks : k' ∈ ks := by
          rcases List.mem_append.mp hk'mem with h | h
          · exact h
          · rw [List.mem_singleton] at h; rw [h]; exact hin
        by_cases hkk : k' = k
        · subst hkk
          rw [List.mem_map]
          refine ⟨(k', Slot.count (ks.count k')), hkm, ?_⟩
          simp [List.count_append]
        · rw [List.mem_map]
          refine ⟨(k', Slot.count (ks.count k')), hmem k' hk'ks, ?_⟩
          simp [hkk, List.count_append, List.count_singleton]
      · rw [hfst]
        refine hord.imp_of_mem ?_
        intro a b ha hb hab
        obtain ⟨ea, hea, rfl⟩ := List.mem_map.mp ha
        obtain ⟨eb, heb, rfl⟩ := List.mem_map.mp hb
        rw [List.indexOf_append_of_mem (hent ea hea).1,
          List.indexOf_append_of_mem (hent eb heb).1]
        exact hab
    · have hno : ∀ e ∈ acc, e.1 ≠ k := by
        intro e he heq
        exact hin (heq ▸ (hent e he).1)
      rw [contar_of_not_mem acc k hno (hk k (by simp))]
      refine ⟨?_, ?_, ?_, ?_⟩
      · rw [List.map_append, List.nodup_append]
        refine ⟨hnd, by simp, ?_⟩
        intro a ha hb
        simp only [List.map_cons, List.map_nil, List.mem_singleton] at hb
        obtain ⟨e, he, rfl⟩ := List.mem_map.mp ha
        exact hno e he hb
      · intro e he
        rcases List.mem_append.mp he with h | h
        · obtain ⟨h1, h2⟩ := hent e h
          refine ⟨by simp [h1], ?_⟩
          rw [h2, List.count_append]
          simp [List.count_singleton]
          intro heq; exact absurd heq.symm (hno e h)
        · rw [List.mem_singleton] at h
          subst h
          simp [List.count_append, List.count_eq_zero_of_not_mem hin]
      · intro k' hk'mem
        rcases List.mem_append.mp hk'mem with h | h
        · have hne : k' ≠ k := fun heq => hin (heq ▸ h)
          rw [List.mem_append]
          left
          have := hmem k' h
          simpa [List.count_append, List.count_singleton, hne, Ne.symm hne] using this
        · rw [List.mem_singleton] at h
          subst h
          rw [List.mem_append]
          right
          simp [List.count_append, List.count_eq_zero_of_not_mem hin]
      · rw [List.map_append, List.pairwise_append]
        refine ⟨?_, by simp, ?_⟩
        · refine hord.imp_of_mem ?_
          intro a b ha hb hab
          obtain ⟨ea, hea, rfl⟩ := List.mem_map.mp ha
          obtain ⟨eb, heb, rfl⟩ := List.mem_map.mp hb
          rw [List.indexOf_append_of_mem (hent ea hea).1,
            List.indexOf_append_of_mem (hent eb heb).1]
          exact hab
        · intro a ha b hb
          simp only [List.map_cons, List.map_nil, List.mem_singleton] at hb
          subst hb
          obtain ⟨e, he, rfl⟩ := List.mem_map.mp ha
          rw [List.indexOf_append_of_mem (hent e he).1, List.indexOf_append_of_not_mem hin]
          have := List.indexOf_lt_length.mpr (hent e he).1
          omega

theorem visitarCidade_le (st : Option String × Nat) (e : String × Slot) :
    st.2 ≤ (visitarCidade st e).2 ∧ ∀ n, e.2 = Slot.count n → n ≤ (visitarCidade st e).2 := by
  unfold visitarCidade
  rcases e with ⟨k, v⟩
  cases v with
  | text => simp
  | count m =>
    by_cases h : m > st.2
    · simp only [h, if_true]
      exact ⟨by omega, fun n hn => by cases hn; exact le_refl _⟩
    · simp only [h, if_false]
      exact ⟨le_refl _, fun n hn => by cases hn; omega⟩

theorem foldl_visitar_le (L : Props) (st : Option String × Nat) :
    st.2 ≤ (L.foldl visitarCidade st).2
      ∧ ∀ e ∈ L, ∀ n, e.2 = Slot.count n → n ≤ (L.foldl visitarCidade st).2 := by
  induction L generalizing st with
  | nil => simp
  | cons a t ih =>
    rw [List.foldl_cons]
    obtain ⟨h1, h2⟩ := ih (visitarCidade st a)
    obtain ⟨h3, h4⟩ := visitarCidade_le st a
    refine ⟨le_trans h3 h1, ?_⟩
    intro e he n hn
    rcases List.mem_cons.mp he with h | h
    · subst h
      exact le_trans (h4 n hn) h1
    · exact h2 e h n hn

theorem foldl_visitar_first (L : Props) (st : Option String × Nat) :
    L.foldl visitarCidade st = st
      ∨ ∃ (L1 L2 : Props) (k : String),
          L = L1 ++ (k, Slot.count (L.foldl visitarCidade st).2) :: L2
            ∧ (L.foldl visitarCidade st).1 = some k
            ∧ (∀ e ∈ L1, ∀ n, e.2 = Slot.count n → n < (L.foldl visitarCidade st).2)
            ∧ st.2 < (L.foldl visitarCidade st).2 := by
  induction L generalizing st with
  | nil => left; rfl
  | cons a t ih =>
    rw [List.foldl_cons]
    have hle := foldl_visitar_le t (visitarCidade st a)
    rcases ih (visitarCidade st a) with hr | ⟨L1, L2, k, hsplit, hk, hlt, hst⟩
    · rw [hr]
      rcases a with ⟨ka, va⟩
      cases va with
      | text => left; rfl
      | count m =>
        by_cases h : m > st.2
        · right
          refine ⟨[], t, ka, ?_, ?_, ?_, ?_⟩
          · simp [visitarCidade, h]
          · simp [visitarCidade, h]
          · simp
          · simp only [visitarCidade, h, if_true]
        · left
          simp [visitarCidade, h]
    · right
      refine ⟨a :: L1, L2, k, ?_, hk, ?_, ?_⟩
      · rw [List.cons_append, ← hsplit]
      · intro e he n hn
        rcases List.mem_cons.mp he with h | h
        · subst h
          exact lt_of_le_of_lt ((visitarCidade_le st e).2 n hn) hst
        · exact hlt e h n hn
      · exact lt_of_le_of_lt (visitarCidade_le st a).1 hst

theorem mem_forInOrder (acc : Props) (e : String × Slot) : e ∈ forInOrder acc ↔ e ∈ acc := by
  unfold forInOrder
  rw [List.mem_append, (List.perm_insertionSort _ _).mem_iff, List.mem_filter, List.mem_filter]
  cases h : (arrayIndex e.1).isSome <;> simp [h]

theorem forInOrder_eq_self (acc : Props) (h : ∀ e ∈ acc, arrayIndex e.1 = none) :
    forInOrder acc = acc := by
  unfold forInOrder
  have h1 : acc.filter (fun e => (arrayIndex e.1).isSome) = [] := by
    rw [List.filter_eq_nil_iff]
    intro e he
    simp [h e he]
  have h2 : acc.filter (fun e => !(arrayIndex e.1).isSome) = acc := by
    rw [List.filter_eq_self]
    intro e he
    simp [h e he]
  rw [h1, h2]
  rfl

theorem tally_result (ks : List String) (hne : ks ≠ [])
    (hk : ∀ k ∈ ks, k ∉ objectPrototypeKeys) :
    ∃ (c : String) (m : Nat),
      maisParticipantes (forInOrder (ks.foldl contar [])) = (some c, m)
        ∧ c ∈ ks ∧ m = ks.count c
        ∧ (∀ k ∈ ks, ks.count k ≤ m)
        ∧ ((∀ k ∈ ks, arrayIndex k = none) →
            ∀ k ∈ ks, k ≠ c → ks.count k = m → ks.indexOf c < ks.indexOf k) := by
  obtain ⟨hnd, hent, hmem, hord⟩ := tally_invariant ks hk
  unfold maisParticipantes
  have hA := foldl_visitar_le (forInOrder (ks.foldl contar [])) (none, 0)
  have hB := foldl_visitar_first (forInOrder (ks.foldl contar [])) (none, 0)
  generalize hr : (forInOrder (ks.foldl contar [])).foldl visitarCidade (none, 0) = r at hA hB
  have hmax : ∀ k ∈ ks, ks.count k ≤ r.2 := by
    intro k hkm
    exact hA.2 (k, Slot.count (ks.count k)) ((mem_forInOrder _ _).mpr (hmem k hkm)) _ rfl
  obtain ⟨k0, hk0⟩ := List.exists_mem_of_ne_nil ks hne
  have hpos : 0 < r.2 := lt_of_lt_of_le (List.count_pos_iff.mpr hk0) (hmax k0 hk0)
  rcases hB with hB | ⟨L1, L2, c, hsplit, hc, hlt, -⟩
  · rw [hB] at hpos
    exact absurd hpos (by simp)
  · have hcin : (c, Slot.count r.2) ∈ forInOrder (ks.foldl contar []) := by
      rw [hsplit]
      simp
    obtain ⟨hcks, hcount⟩ := hent _ ((mem_forInOrder _ _).mp hcin)
    have hm : r.2 = ks.count c := by
      simpa using hcount
    refine ⟨c, r.2, ?_, hcks, hm, hmax, ?_⟩
    · rw [← hc]
    · intro hidx k hkm hne' hcnt
      have hself : forInOrder (ks.foldl contar []) = ks.foldl contar [] :=
        forInOrder_eq_self _ (fun e he => hidx e.1 (hent e he).1)
      rw [hself] at hsplit
      have hkin : (k, Slot.count r.2) ∈ ks.foldl contar [] := by
        rw [← hcnt]
        exact hmem k hkm
      rw [hsplit] at hord
      rw [hsplit] at hkin
      rw [List.map_append, List.map_cons, List.pairwise_append] at hord
      obtain ⟨-, hord2, -⟩ := hord
      rw [List.pairwise_cons] at hord2
      rcases List.mem_append.mp hkin with h | h
      · exact absurd (hlt _ h r.2 rfl) (lt_irrefl _)
      · rcases List.mem_cons.mp h with h | h
        · exact absurd (congrArg Prod.fst h) hne'
        · exact hord2.1 k (List.mem_map.mpr ⟨_, h, rfl⟩)

theorem contagemCidades_eq (js : Coercions) (stored : List Participant) :
    contagemCidades js stored = (cityKeys js stored).foldl contar [] := by
  unfold contagemCidades cityKeys
  rw [List.foldl_map]

/-- Where the most-common-city handler does compute an arg-max: on a non-empty
collection none of whose city names is inherited from `Object.prototype`, it
returns a city of some participant, with its number of participants, and no
city has more. -/
theorem city_most_argmax (js : Coercions) (stored : List Participant) (hne : stored ≠ [])
    (hk : ∀ k ∈ cityKeys js stored, k ∉ objectPrototypeKeys) :
    ∃ (c : String) (m : Nat),
      getParticipantsCityMost js stored = ⟨200, .cidadeMais (some c) m⟩
        ∧ (∃ p ∈ stored, p.cidade.propertyKey js = c)
        ∧ m = cityCount js stored c
        ∧ ∀ p ∈ stored, cityCount js stored (p.cidade.propertyKey js) ≤ m := by
  have hks : cityKeys js stored ≠ [] := by
    unfold cityKeys
    simpa using hne
  obtain ⟨c, m, hr, hc, hm, hmax, -⟩ := tally_result (cityKeys js stored) hks hk
  refine ⟨c, m, ?_, ?_, hm, ?_⟩
  · unfold getParticipantsCityMost
    rw [if_neg (by simpa using hne), contagemCidades_eq]
    simp only [hr]
  · unfold cityKeys at hc
    obtain ⟨p, hp, hpc⟩ := List.mem_map.mp hc
    exact ⟨p, hp, hpc⟩
  · intro p hp
    exact hmax _ (List.mem_map_of_mem _ hp)

/-- C13: the most-common-city handler does not compute an arg-max when a city
is named like a property that objects inherit.  For the single participant of
city `"constructor"` it returns no city and total 0 on a non-empty collection;
with two participants in `"constructor"` and one in `"Recife"` it returns
`"Recife"` with total 1.  Reading `acc[cidade]` on the empty object finds the
inherited function, so the tally of that city is a string and never a count.
On the empty collection the handler returns no city and total 0. -/
theorem city_most_inherited_name :
    dispatch .GET ["participants", "city", "most"] = some (.getParticipantsCityMost, [])
      ∧ getParticipantsCityMost unusedCoercions [] = ⟨200, .cidadeMais none 0⟩
      ∧ getParticipantsCityMost unusedCoercions [morador "constructor"] =
          ⟨200, .cidadeMais none 0⟩
      ∧ getParticipantsCityMost unusedCoercions
          [morador "constructor", morador "constructor", morador "Recife"] =
          ⟨200, .cidadeMais (some "Recife") 1⟩
      ∧ cityCount unusedCoercions
          [morador "constructor", morador "constructor", morador "Recife"] "constructor" = 2
      ∧ getParticipantsCityMost unusedCoercions
          [morador "Recife", morador "Natal", morador "Recife"] =
          ⟨200, .cidadeMais (some "Recife") 2⟩ := by
  decide

/-- C14, as stated, fails: for the cities `["2", "1"]`, which tie, the handler
returns `"1"`, whose first occurrence comes after that of `"2"`; the loop
visits names that are array indices first, in ascending numeric order. -/
theorem city_most_tie_counterexample :
    getParticipantsCityMost unusedCoercions [morador "2", morador "1"] =
        ⟨200, .cidadeMais (some "1") 1⟩
      ∧ cityCount unusedCoercions [morador "2", morador "1"] "2" = 1
      ∧ cityCount unusedCoercions [morador "2", morador "1"] "1" = 1
      ∧ firstOccurrence unusedCoercions [morador "2", morador "1"] "2" <
          firstOccurrence unusedCoercions [morador "2", morador "1"] "1" := by
  decide

/-- C14, amended: for every non-empty collection none of whose city names is an
array index (the canonical decimal string of a number below `2^32 - 1`) or a
name inherited from `Object.prototype`, the handler returns a city with the
highest tally, and every other city with the same tally has its first
occurrence later in the collection; e.g. cities `["A", "B"]` give `"A"`. -/
theorem city_most_tie_first_occurrence (js : Coercions) (stored : List Participant)
    (hne : stored ≠ [])
    (hidx : ∀ k ∈ cityKeys js stored, arrayIndex k = none)
    (hk : ∀ k ∈ cityKeys js stored, k ∉ objectPrototypeKeys) :
    ∃ (c : String) (m : Nat),
      getParticipantsCityMost js stored = ⟨200, .cidadeMais (some c) m⟩
        ∧ c ∈ cityKeys js stored
        ∧ m = cityCount js stored c
        ∧ (∀ k ∈ cityKeys js stored, cityCount js stored k ≤ m)
        ∧ ∀ k ∈ cityKeys js stored, k ≠ c → cityCount js stored k = m →
            firstOccurrence js stored c < firstOccurrence js stored k := by
  have hks : cityKeys js stored ≠ [] := by
    unfold cityKeys
    simpa using hne
  obtain ⟨c, m, hr, hc, hm, hmax, hfirst⟩ := tally_result (cityKeys js stored) hks hk
  refine ⟨c, m, ?_, hc, hm, hmax, hfirst hidx⟩
  unfold getParticipantsCityMost
  rw [if_neg (by simpa using hne), contagemCidades_eq]
  simp only [hr]

/-- Witness for C14: the cities `["A", "B"]` tie and the handler returns
`"A"`. -/
theorem city_most_tie_first_occurrence_witness :
    getParticipantsCityMost unusedCoercions [morador "A", morador "B"] =
        ⟨200, .cidadeMais (some "A") 1⟩
      ∧ ∃ (c : String) (m : Nat),
        getParticipantsCityMost unusedCoercions [morador "A", morador "B"] =
            ⟨200, .cidadeMais (some c) m⟩
          ∧ c ∈ cityKeys unusedCoercions [morador "A", morador "B"]
          ∧ m = cityCount unusedCoercions [morador "A", morador "B"] c
          ∧ (∀ k ∈ cityKeys unusedCoercions [morador "A", morador "B"],
              cityCount unusedCoercions [morador "A", morador "B"] k ≤ m)
          ∧ ∀ k ∈ cityKeys unusedCoercions [morador "A", morador "B"], k ≠ c →
              cityCount unusedCoercions [morador "A", morador "B"] k = m →
              firstOccurrence unusedCoercions [morador "A", morador "B"] c <
                firstOccurrence unusedCoercions [morador "A", morador "B"] k :=
  ⟨by decide,
    city_most_tie_first_occurrence unusedCoercions [morador "A", morador "B"]
      (by decide) (by decide) (by decide)⟩

end Server
